import Mathlib

/-!
Verification development for the `io_hkx_animation` Blender add-on
(`src/io_hkx_animation/ops.py`): coordinate-frame reconciliation,
snap quantization, keyframe-track transcoding, sampling-rate handling and
operator control flow.

Floating point values are idealized as real numbers; exact sampling
arithmetic (frame rates, frame steps, annotation indices) is modelled over
the rationals.  The `mathutils` matrix polar decomposition
(`Matrix.decompose`) is an external library call and is treated as an
opaque function parameter throughout.
-/

set_option maxHeartbeats 1600000

namespace IoHkx

open Matrix

/-- Python `round` applied to an exact rational (Python rounds half to even),
as in `int(round(x))` in `HKXExport.execute`. -/
def pyRound (q : ℚ) : ℤ :=
  if q - ⌊q⌋ < 1/2 then ⌊q⌋
  else if (1 : ℚ)/2 < q - ⌊q⌋ then ⌊q⌋ + 1
  else if Even ⌊q⌋ then ⌊q⌋ else ⌊q⌋ + 1

/-- Integer part produced by Python `math.modf`: truncation toward zero. -/
def pyTrunc (q : ℚ) : ℤ := if 0 ≤ q then ⌊q⌋ else -⌊-q⌋

/-- A 3-component vector, modelling a `mathutils.Vector` of length 3. -/
structure Vec3 where
  x : ℝ
  y : ℝ
  z : ℝ

/-- A quaternion `(w, x, y, z)`, modelling `mathutils.Quaternion`. -/
structure Quat where
  w : ℝ
  x : ℝ
  y : ℝ
  z : ℝ

/-- A decomposed transform `(translation, rotation, scale)` as returned by
`mathutils.Matrix.decompose`. -/
structure Transform where
  loc : Vec3
  rot : Quat
  scl : Vec3

/-- Componentwise vector subtraction. -/
def vsub (a b : Vec3) : Vec3 := ⟨a.x - b.x, a.y - b.y, a.z - b.z⟩

/-- Vector dot product (`mathutils.Vector.dot`). -/
def vdot (a b : Vec3) : ℝ := a.x * b.x + a.y * b.y + a.z * b.z

/-- Scalar multiplication of a vector. -/
def vsmul (c : ℝ) (v : Vec3) : Vec3 := ⟨c * v.x, c * v.y, c * v.z⟩

/-- Componentwise division of a vector by a scalar (`loc /= length_scale`). -/
noncomputable def vdivs (v : Vec3) (c : ℝ) : Vec3 := ⟨v.x / c, v.y / c, v.z / c⟩

/-- Componentwise multiplication of a vector by a scalar (`loc *= length_scale`). -/
def vmuls (v : Vec3) (c : ℝ) : Vec3 := ⟨v.x * c, v.y * c, v.z * c⟩

/-- Vector length (`mathutils.Vector.length`). -/
noncomputable def vlen (v : Vec3) : ℝ := Real.sqrt (vdot v v)

/-- Squared euclidean norm of a quaternion. -/
def qnormSq (q : Quat) : ℝ := q.w ^ 2 + q.x ^ 2 + q.y ^ 2 + q.z ^ 2

/-- Quaternion norm. -/
noncomputable def qnorm (q : Quat) : ℝ := Real.sqrt (qnormSq q)

/-- Quaternion normalization (`mathutils.Quaternion.normalize`, Blender
`normalize_qt`): divide by the norm, or return the unit quaternion when the
norm is zero. -/
noncomputable def qnormalize (q : Quat) : Quat :=
  if qnorm q = 0 then ⟨1, 0, 0, 0⟩
  else ⟨q.w / qnorm q, q.x / qnorm q, q.y / qnorm q, q.z / qnorm q⟩

/-- Translation-component snap: a component with absolute value below the
threshold becomes exactly `0` (ops.py lines 516-520, 758-762, 404-408). -/
noncomputable def snapLocVal (eps v : ℝ) : ℝ := if |v| < eps then 0 else v

/-- Translation snap applied to all three components. -/
noncomputable def snapLoc (eps : ℝ) (v : Vec3) : Vec3 :=
  ⟨snapLocVal eps v.x, snapLocVal eps v.y, snapLocVal eps v.z⟩

/-- Rotation component snap: `w` becomes `1` when `|w - 1|` is below the
threshold, and each of `x, y, z` becomes `0` when its absolute value is below
the threshold (ops.py lines 524-529, 765-770, 411-416). -/
noncomputable def snapRotComps (eps : ℝ) (q : Quat) : Quat :=
  ⟨if |q.w - 1| < eps then 1 else q.w,
   if |q.x| < eps then 0 else q.x,
   if |q.y| < eps then 0 else q.y,
   if |q.z| < eps then 0 else q.z⟩

/-- Full rotation snap pass: normalize, snap components, normalize again
(ops.py lines 522-530). -/
noncomputable def snapRot (eps : ℝ) (q : Quat) : Quat :=
  qnormalize (snapRotComps eps (qnormalize q))

/-- Scale-component snap: a component with `|c - 1|` below the threshold
becomes exactly `1` (ops.py lines 532-537, 772-777, 419-423). -/
noncomputable def snapSclVal (eps v : ℝ) : ℝ := if |v - 1| < eps then 1 else v

/-- Scale snap applied to all three components. -/
noncomputable def snapScl (eps : ℝ) (v : Vec3) : Vec3 :=
  ⟨snapSclVal eps v.x, snapSclVal eps v.y, snapSclVal eps v.z⟩

/-- The full snap pass over a decomposed transform with per-field thresholds,
as inlined at the four call sites of ops.py. -/
noncomputable def snapTransform (leps reps seps : ℝ) (t : Transform) : Transform :=
  ⟨snapLoc leps t.loc, snapRot reps t.rot, snapScl seps t.scl⟩

/-- The six signed-axis labels of the `AXES` enum
(`'X','Y','Z','-X','-Y','-Z'`) accepted by `axis_conversion`. -/
inductive Axis
  | X
  | Y
  | Z
  | negX
  | negY
  | negZ
deriving DecidableEq

/-- The unit vector denoted by a signed-axis label. -/
def axisVec : Axis → Fin 3 → ℚ
  | .X => ![1, 0, 0]
  | .Y => ![0, 1, 0]
  | .Z => ![0, 0, 1]
  | .negX => ![-1, 0, 0]
  | .negY => ![0, -1, 0]
  | .negZ => ![0, 0, -1]

/-- Dot product of two rational 3-vectors. -/
def dotQ (a b : Fin 3 → ℚ) : ℚ := a 0 * b 0 + a 1 * b 1 + a 2 * b 2

/-- Cross product of two rational 3-vectors. -/
def crossQ (a b : Fin 3 → ℚ) : Fin 3 → ℚ :=
  ![a 1 * b 2 - a 2 * b 1, a 2 * b 0 - a 0 * b 2, a 0 * b 1 - a 1 * b 0]

/-- Validity of a forward/up axis pair: the two labels must denote
perpendicular axes, otherwise `axis_conversion` raises. -/
def axisPerp (f u : Axis) : Prop := dotQ (axisVec f) (axisVec u) = 0

instance (f u : Axis) : Decidable (axisPerp f u) := by
  unfold axisPerp
  infer_instance

/-- The orthonormal frame `[forward, up, forward x up]` of an axis
convention, as columns of a 3x3 matrix. -/
def basisMat (f u : Axis) : Matrix (Fin 3) (Fin 3) ℚ :=
  Matrix.of fun i j => ![axisVec f, axisVec u, crossQ (axisVec f) (axisVec u)] j i

/-- Modelled from the documented semantics of
`bpy_extras.io_utils.axis_conversion` (an external library call): the unique
rotation taking the source forward/up frame onto the destination forward/up
frame, namely `B_to * B_from^T` for the two orthonormal frames. -/
def axisConvQ (ff fu tf tu : Axis) : Matrix (Fin 3) (Fin 3) ℚ :=
  basisMat tf tu * (basisMat ff fu)ᵀ

/-- Entrywise rational-to-real cast of a 3x3 matrix. -/
def mat3ToR (m : Matrix (Fin 3) (Fin 3) ℚ) : Matrix (Fin 3) (Fin 3) ℝ :=
  m.map fun q => (q : ℝ)

/-- Model of `mathutils.Matrix.to_4x4`: embed a 3x3 matrix in the upper-left block of
a 4x4 matrix whose last row and column are those of the identity. -/
def to4x4 (m : Matrix (Fin 3) (Fin 3) ℝ) : Matrix (Fin 4) (Fin 4) ℝ :=
  !![m 0 0, m 0 1, m 0 2, 0;
     m 1 0, m 1 1, m 1 2, 0;
     m 2 0, m 2 1, m 2 2, 0;
     0, 0, 0, 1]

/-- Model of `HKXIO.axis_conversion` (ops.py lines 173-180): `self.framerot`, the
4x4 form of the axis-conversion rotation. -/
def frameRot (ff fu tf tu : Axis) : Matrix (Fin 4) (Fin 4) ℝ :=
  to4x4 (mat3ToR (axisConvQ ff fu tf tu))

/-- Model of `HKXIO.axis_conversion`: `self.framerotinv = self.framerot.transposed()`. -/
def frameRotInv (ff fu tf tu : Axis) : Matrix (Fin 4) (Fin 4) ℝ :=
  (frameRot ff fu tf tu)ᵀ

/-- Rotation part of `mathutils.Matrix.LocRotScale`: the standard quaternion
to rotation-matrix formula used by Blender `quat_to_mat3`. -/
def quatMat (q : Quat) : Matrix (Fin 3) (Fin 3) ℝ :=
  !![1 - 2 * (q.y ^ 2 + q.z ^ 2), 2 * (q.x * q.y - q.w * q.z), 2 * (q.x * q.z + q.w * q.y);
     2 * (q.x * q.y + q.w * q.z), 1 - 2 * (q.x ^ 2 + q.z ^ 2), 2 * (q.y * q.z - q.w * q.x);
     2 * (q.x * q.z - q.w * q.y), 2 * (q.y * q.z + q.w * q.x), 1 - 2 * (q.x ^ 2 + q.y ^ 2)]

/-- Model of `mathutils.Matrix.LocRotScale(loc, rot, scl)` as a 4x4 matrix: rotation
columns scaled by the scale components, translation in the last column. -/
def locRotScale (l : Vec3) (q : Quat) (s : Vec3) : Matrix (Fin 4) (Fin 4) ℝ :=
  !![quatMat q 0 0 * s.x, quatMat q 0 1 * s.y, quatMat q 0 2 * s.z, l.x;
     quatMat q 1 0 * s.x, quatMat q 1 1 * s.y, quatMat q 1 2 * s.z, l.y;
     quatMat q 2 0 * s.x, quatMat q 2 1 * s.y, quatMat q 2 2 * s.z, l.z;
     0, 0, 0, 1]

/-- One source key of a transform track.  Modelled from the spec:
`io_hkx_animation.ixml` (`Track`, `Key`) is not under `src/`; per the spec a
transform-track key is `(frame, value : Transform)` with integer frame. -/
structure TKey where
  frame : ℤ
  loc : Vec3
  rot : Quat
  scl : Vec3

/-- The per-key conversion of `HKXImport.import_transform`
(ops.py lines 505-537): divide the translation by `length_scale`, compose,
conjugate by the axis frame (`framerotinv @ mat @ framerot`), decompose, and
snap with thresholds `(1e-4, 1e-3, 1e-4)`.  `decompose` is the external
`mathutils.Matrix.decompose`. -/
noncomputable def importKeyValue (decompose : Matrix (Fin 4) (Fin 4) ℝ → Transform)
    (lengthScale : ℝ) (rotM rotInv : Matrix (Fin 4) (Fin 4) ℝ)
    (loc : Vec3) (rot : Quat) (scl : Vec3) : Transform :=
  let mat := locRotScale (vdivs loc lengthScale) rot scl
  snapTransform (1e-4) (1e-3) (1e-4) (decompose (rotInv * mat * rotM))

/-- The ten per-component F-Curves created by `import_transform`: each holds
the ordered list of `(frame, value)` samples inserted into it. -/
structure Curves10 where
  locx : List (ℤ × ℝ)
  locy : List (ℤ × ℝ)
  locz : List (ℤ × ℝ)
  rotw : List (ℤ × ℝ)
  rotx : List (ℤ × ℝ)
  roty : List (ℤ × ℝ)
  rotz : List (ℤ × ℝ)
  sclx : List (ℤ × ℝ)
  scly : List (ℤ × ℝ)
  sclz : List (ℤ × ℝ)

/-- The empty state of the ten freshly created F-Curves. -/
def emptyCurves : Curves10 := ⟨[], [], [], [], [], [], [], [], [], []⟩

/-- The key loop of `HKXImport.import_transform` (ops.py lines 505-553):
for each source key, convert its value and insert one keyframe point per
component F-Curve at the source key's frame. -/
noncomputable def importTransform (decompose : Matrix (Fin 4) (Fin 4) ℝ → Transform)
    (lengthScale : ℝ) (rotM rotInv : Matrix (Fin 4) (Fin 4) ℝ)
    (keys : List TKey) : Curves10 :=
  keys.foldl
    (fun cs k =>
      let t := importKeyValue decompose lengthScale rotM rotInv k.loc k.rot k.scl
      { locx := cs.locx ++ [(k.frame, t.loc.x)]
        locy := cs.locy ++ [(k.frame, t.loc.y)]
        locz := cs.locz ++ [(k.frame, t.loc.z)]
        rotw := cs.rotw ++ [(k.frame, t.rot.w)]
        rotx := cs.rotx ++ [(k.frame, t.rot.x)]
        roty := cs.roty ++ [(k.frame, t.rot.y)]
        rotz := cs.rotz ++ [(k.frame, t.rot.z)]
        sclx := cs.sclx ++ [(k.frame, t.scl.x)]
        scly := cs.scly ++ [(k.frame, t.scl.y)]
        sclz := cs.sclz ++ [(k.frame, t.scl.z)] })
    emptyCurves

/-- The per-bone, per-frame conversion of `HKXExport.export_animation`
(ops.py lines 753-798): decompose the host pose matrix, snap with thresholds
`(1e-5, 1e-3, 1e-5)`, recompose and right-multiply by `framerot`, decompose
again, and multiply the translation by `length_scale`. -/
noncomputable def exportKeyValue (decompose : Matrix (Fin 4) (Fin 4) ℝ → Transform)
    (lengthScale : ℝ) (rotM : Matrix (Fin 4) (Fin 4) ℝ)
    (poseMat : Matrix (Fin 4) (Fin 4) ℝ) : Transform :=
  let t1 := snapTransform (1e-5) (1e-3) (1e-5) (decompose poseMat)
  let t2 := decompose (locRotScale t1.loc t1.rot t1.scl * rotM)
  ⟨vmuls t2.loc lengthScale, t2.rot, t2.scl⟩

/-- Model of `self.framestep = context.scene.render.fps / SAMPLING_RATE`
(ops.py line 656). -/
def exportFramestep (fps : ℚ) : ℚ := fps / 30

/-- Model of `self.frames` (ops.py lines 657-664): the step count `end - start`,
replaced by `int(round(steps / framestep))` when the host rate is not 30,
plus one. -/
def exportFrames (fps : ℚ) (start fin : ℤ) : ℤ :=
  (if fps ≠ 30 then pyRound (((fin - start : ℤ) : ℚ) / exportFramestep fps)
   else fin - start) + 1

/-- The `(frame, subframe)` arguments passed to `context.scene.frame_set`
for sample index `i` (ops.py lines 746-751): the integer frame directly at
the canonical rate, otherwise the `math.modf` split of
`start + i * framestep`. -/
def frameSetArgs (fps : ℚ) (start : ℤ) (framestep : ℚ) (i : ℕ) : ℤ × ℚ :=
  if fps = 30 then (start + i, 0)
  else
    let p : ℚ := (start : ℚ) + i * framestep
    (pyTrunc p, p - pyTrunc p)

/-- Accumulated state of the frame loop: the scene's current frame (mutated
by each `frame_set`), the trace of `frame_set` calls, and the keys appended
to each bone's transform track. -/
structure FrameLoopAcc where
  sceneFrame : ℤ
  fsets : List (ℤ × ℚ)
  tracks : List (List (ℕ × Transform))

/-- The frame loop of `HKXExport.export_animation` (ops.py lines 744-807):
for each sample index, set the scene frame, then for each selected bone read
the posed matrix at that time and append a key at the current sample index.
`pose bone t` is the host read `bone.matrix` with the scene at time `t`. -/
noncomputable def exportFrameLoop (decompose : Matrix (Fin 4) (Fin 4) ℝ → Transform)
    (pose : String → ℚ → Matrix (Fin 4) (Fin 4) ℝ)
    (lengthScale : ℝ) (rotM : Matrix (Fin 4) (Fin 4) ℝ)
    (fps framestep : ℚ) (start : ℤ) (frames : ℕ) (bones : List String)
    (sceneFrame0 : ℤ) : FrameLoopAcc :=
  (List.range frames).foldl
    (fun acc i =>
      let fa := frameSetArgs fps start framestep i
      let t : ℚ := (fa.1 : ℚ) + fa.2
      { sceneFrame := fa.1
        fsets := acc.fsets ++ [fa]
        tracks := acc.tracks.zipWith
          (fun tr b => tr ++ [(i, exportKeyValue decompose lengthScale rotM (pose b t))])
          bones })
    ⟨sceneFrame0, [], bones.map fun _ => []⟩

/-- The pose-marker loop of `HKXExport.export_animation`
(ops.py lines 811-817): markers inside the closed frame interval are
remapped to `(frame - start) / framestep + 1` and appended with their text;
markers outside are dropped. -/
def exportAnnots (start fin : ℤ) (framestep : ℚ) (markers : List (ℤ × String)) :
    List (ℚ × String) :=
  markers.foldl
    (fun acc m =>
      if start ≤ m.1 ∧ m.1 ≤ fin then
        acc ++ [(((m.1 : ℚ) - (start : ℚ)) / framestep + 1, m.2)]
      else acc)
    []

/-- The connectivity test of `HKXImport.find_connected`
(ops.py lines 333-355): the separation vector from bone origin to the
candidate child origin must be longer than `1e-5`, have non-negative scalar
projection on the bone's local Y axis, and have rejection from that axis
shorter than `1e-5`. -/
noncomputable def connectedCond (ourLoc yAxis childLoc : Vec3) : Prop :=
  let sep := vsub childLoc ourLoc
  vlen sep > 1e-5 ∧
    vdot sep yAxis ≥ 0 ∧
      vlen (vsub sep (vsmul (vdot sep yAxis) yAxis)) < 1e-5

noncomputable instance (ourLoc yAxis childLoc : Vec3) :
    Decidable (connectedCond ourLoc yAxis childLoc) := by
  unfold connectedCond
  exact instDecidableAnd

/-- Model of `HKXImport.find_connected` (ops.py lines 333-355): return the first
child (in iteration order) passing the connectivity test, together with the
distance `separation.length` to it, or nothing. -/
noncomputable def findConnected (ourLoc yAxis : Vec3) :
    List Vec3 → Option (Vec3 × ℝ)
  | [] => none
  | c :: rest =>
      if connectedCond ourLoc yAxis c then
        some (c, vlen (vsub c ourLoc))
      else findConnected ourLoc yAxis rest

/-- The bone-length assignment of `HKXImport.import_bone`
(ops.py lines 437-440): the distance returned by `find_connected` when a
connected child exists, else the default length `1.0` set at line 387. -/
noncomputable def boneLengthFrom (ourLoc yAxis : Vec3) (children : List Vec3) : ℝ :=
  match findConnected ourLoc yAxis children with
  | some (_, d) => d
  | none => 1

/-- One animation of the intermediate document.  Modelled from the spec:
`io_hkx_animation.ixml` is not under `src/`; per the spec an animation owns
ordered transform tracks and ordered annotations, and `add_key` /
`add_annotation` append. -/
structure Anim where
  tracks : List (List (ℕ × Transform))
  annots : List (ℚ × String)

/-- One selected armature as seen by the export operator: its name, the
selected pose bones, and the pose markers of its action (empty when it has
no action). -/
structure ExpArm where
  name : String
  selBones : List String
  markers : List (ℤ × String)

/-- Observable events of a run of the export operator. -/
inductive ExpEv
  | warnFps
  | warnNoBones (arm : String)
  | errAxes
  | errTool
  | errNeedActive
  | errTooMany
  | errPrimary
  | errSecondary
  | errEmptyInterval
  | errConverter
  | converterRun
deriving DecidableEq

/-- Model of `HKXExport.export_animation` (ops.py lines 713-817) for one armature:
with no selected bones, report a warning and return without touching the
document or the scene; otherwise read `frame_current`, run the frame loop,
restore the saved frame with `frame_set`, collect annotations, and append
the new animation to the document.  Returns the updated document, the scene
frame after the call, and the reported events. -/
noncomputable def exportAnimationM (decompose : Matrix (Fin 4) (Fin 4) ℝ → Transform)
    (pose : String → ℚ → Matrix (Fin 4) (Fin 4) ℝ)
    (lengthScale : ℝ) (rotM : Matrix (Fin 4) (Fin 4) ℝ)
    (fps framestep : ℚ) (start fin : ℤ) (frames : ℕ)
    (arm : ExpArm) (doc : List Anim) (sceneFrame : ℤ) :
    List Anim × ℤ × List ExpEv :=
  if arm.selBones = [] then (doc, sceneFrame, [ExpEv.warnNoBones arm.name])
  else
    let savedFrame := sceneFrame
    let lp := exportFrameLoop decompose pose lengthScale rotM fps framestep
      start frames arm.selBones sceneFrame
    let anim : Anim := ⟨lp.tracks, exportAnnots start fin framestep arm.markers⟩
    (doc ++ [anim], savedFrame, [])

/-- The inputs of one run of `HKXExport.execute`: the destination axis
labels, the outcome of the external tool/file lookups, the selected
armatures (active first, as produced by `get_selected`), the frame interval
and host rate, the initial scene state, and whether the converter process
succeeds. -/
structure ExpCtx where
  bf : Axis
  bu : Axis
  toolFound : Bool
  arms : List ExpArm
  activeSel : Bool
  primaryOk : Bool
  secondaryOk : Bool
  start : ℤ
  fin : ℤ
  fps : ℚ
  frame0 : ℤ
  active0 : String
  converterOk : Bool

/-- The observable outcome of `HKXExport.execute`. -/
structure ExpOut where
  cancelled : Bool
  events : List ExpEv
  anims : List Anim
  finalFrame : ℤ
  finalActive : String

/-- The warning emitted when the host rate differs from the canonical rate
(ops.py lines 660-662). -/
def warnsOf (fps : ℚ) : List ExpEv := if fps ≠ 30 then [ExpEv.warnFps] else []

/-- The armature loop of `HKXExport.execute` (ops.py lines 672-674): one
`export_animation` per selected armature, threading the document, the scene
frame and the reported events. -/
noncomputable def exportArmsLoop (decompose : Matrix (Fin 4) (Fin 4) ℝ → Transform)
    (pose : String → String → ℚ → Matrix (Fin 4) (Fin 4) ℝ)
    (lengthScale : ℝ) (rotM : Matrix (Fin 4) (Fin 4) ℝ)
    (fps framestep : ℚ) (start fin : ℤ) (frames : ℕ)
    (arms : List ExpArm) (init : List Anim × ℤ × List ExpEv) :
    List Anim × ℤ × List ExpEv :=
  arms.foldl
    (fun st arm =>
      let r := exportAnimationM decompose (pose arm.name) lengthScale rotM
        fps framestep start fin frames arm st.1 st.2.1
      (r.1, r.2.1, st.2.2 ++ r.2.2))
    init

/-- The body of `HKXExport.execute` after all validation checks pass
(ops.py lines 652-704): sampling parameters, rate warning, the armature
loop, restoration of the active object, and the converter invocation that
happens only when the document is non-empty. -/
noncomputable def exportRun (decompose : Matrix (Fin 4) (Fin 4) ℝ → Transform)
    (pose : String → String → ℚ → Matrix (Fin 4) (Fin 4) ℝ)
    (lengthScale : ℝ) (ctx : ExpCtx) : ExpOut :=
  let rotM := frameRot Axis.Y Axis.Z ctx.bf ctx.bu
  let framestep := exportFramestep ctx.fps
  let frames := (exportFrames ctx.fps ctx.start ctx.fin).toNat
  let st := exportArmsLoop decompose pose lengthScale rotM ctx.fps framestep
    ctx.start ctx.fin frames ctx.arms (([] : List Anim), ctx.frame0, warnsOf ctx.fps)
  if st.1.isEmpty then ⟨false, st.2.2, st.1, st.2.1, ctx.active0⟩
  else if ctx.converterOk then
    ⟨false, st.2.2 ++ [ExpEv.converterRun], st.1, st.2.1, ctx.active0⟩
  else
    ⟨true, st.2.2 ++ [ExpEv.converterRun, ExpEv.errConverter], st.1, st.2.1, ctx.active0⟩

/-- Model of `HKXExport.execute` (ops.py lines 618-711): validation checks in source
order (each raising reports an error and cancels), then the export body
`exportRun`. -/
noncomputable def exportExecute (decompose : Matrix (Fin 4) (Fin 4) ℝ → Transform)
    (pose : String → String → ℚ → Matrix (Fin 4) (Fin 4) ℝ)
    (lengthScale : ℝ) (ctx : ExpCtx) : ExpOut :=
  if ¬ axisPerp ctx.bf ctx.bu then
    ⟨true, [ExpEv.errAxes], [], ctx.frame0, ctx.active0⟩
  else if ctx.toolFound = false then
    ⟨true, [ExpEv.errTool], [], ctx.frame0, ctx.active0⟩
  else if ctx.arms.length = 0 ∨ ctx.activeSel = false then
    ⟨true, [ExpEv.errNeedActive], [], ctx.frame0, ctx.active0⟩
  else if 2 < ctx.arms.length then
    ⟨true, [ExpEv.errTooMany], [], ctx.frame0, ctx.active0⟩
  else if ctx.primaryOk = false then
    ⟨true, [ExpEv.errPrimary], [], ctx.frame0, ctx.active0⟩
  else if 1 < ctx.arms.length ∧ ctx.secondaryOk = false then
    ⟨true, [ExpEv.errSecondary], [], ctx.frame0, ctx.active0⟩
  else if ¬ ctx.start < ctx.fin then
    ⟨true, [ExpEv.errEmptyInterval], [], ctx.frame0, ctx.active0⟩
  else
    exportRun decompose pose lengthScale ctx

/-- Observable events of a run of the import operator. -/
inductive ImpEv
  | warnFps
  | errAxes
  | errTool
  | errConverter
  | errNoSkels
  | errMismatch
  | errNoActive
  | skelImport
  | trackCommit
deriving DecidableEq

/-- The inputs of one run of `HKXImport.execute`: axis labels, external
tool/converter outcomes, the skeleton and animation counts of the loaded
document, the number of selected armatures and whether the active object is
one of them. -/
structure ImpCtx where
  bf : Axis
  bu : Axis
  fps : ℚ
  toolFound : Bool
  unpackOk : Bool
  docSkels : ℕ
  docAnims : ℕ
  selArms : ℕ
  activeOk : Bool

/-- The observable outcome of `HKXImport.execute`. -/
structure ImpOut where
  cancelled : Bool
  events : List ImpEv
  fpsFinal : ℚ
deriving DecidableEq

/-- Model of `HKXImport.execute` (ops.py lines 227-331): axis conversion, canonical
rate enforcement with a warning, converter unpack, then either the
skeleton-import branch (no armature selected; at most two skeletons, error
when the file has none) or the selected-armature branch, which errors when
the selection count differs from the animation count or the active object is
not among them, and otherwise commits one action of tracks per animation. -/
def importExecute (ctx : ImpCtx) : ImpOut :=
  if ¬ axisPerp ctx.bf ctx.bu then ⟨true, [ImpEv.errAxes], ctx.fps⟩
  else
    let fps2 : ℚ := if ctx.fps ≠ 30 then 30 else ctx.fps
    let warns : List ImpEv := if ctx.fps ≠ 30 then [ImpEv.warnFps] else []
    if ctx.toolFound = false then ⟨true, warns ++ [ImpEv.errTool], fps2⟩
    else if ctx.unpackOk = false then ⟨true, warns ++ [ImpEv.errConverter], fps2⟩
    else if ctx.selArms = 0 then
      let skels := min ctx.docSkels 2
      if skels = 0 then
        ⟨true, warns ++ [ImpEv.errNoSkels], fps2⟩
      else
        ⟨false,
          warns ++ List.replicate skels ImpEv.skelImport ++
            List.replicate ctx.docAnims ImpEv.trackCommit,
          fps2⟩
    else if ctx.selArms ≠ ctx.docAnims then
      ⟨true, warns ++ [ImpEv.errMismatch], fps2⟩
    else if ctx.activeOk = false then
      ⟨true, warns ++ [ImpEv.errNoActive], fps2⟩
    else
      ⟨false, warns ++ List.replicate ctx.docAnims ImpEv.trackCommit, fps2⟩

/-- The identity transform (zero translation, unit rotation, unit scale). -/
def tId : Transform := ⟨⟨0, 0, 0⟩, ⟨1, 0, 0, 0⟩, ⟨1, 1, 1⟩⟩

/-- A concrete export context whose single armature has no selected bones
and whose external collaborators all succeed. -/
def ctxNoBones : ExpCtx :=
  ⟨Axis.Y, Axis.Z, true, [⟨"Arm", [], []⟩], true, true, true, 0, 5, 30, 7, "Obj", true⟩

/-- A concrete export context whose frame interval is empty
(`start = fin = 5`) but which is otherwise valid. -/
def ctxEmptyInterval : ExpCtx :=
  ⟨Axis.Y, Axis.Z, true, [⟨"Arm", ["Bone"], []⟩], true, true, true, 5, 5, 30, 7, "Obj", true⟩

/-- A concrete import context with two selected armatures and a document
holding three animations. -/
def ctxMismatch : ImpCtx := ⟨Axis.Y, Axis.Z, 30, true, true, 3, 3, 2, true⟩

/-- A concrete export context with a 60 fps host timeline over the frame
interval `[10, 40]`. -/
def ctxRate : ExpCtx :=
  ⟨Axis.Y, Axis.Z, true, [⟨"Arm", [], []⟩], true, true, true, 10, 40, 60, 7, "Obj", true⟩

/-- A concrete import context with a 24 fps host timeline. -/
def ctxRateImp : ImpCtx := ⟨Axis.Y, Axis.Z, 24, true, true, 1, 1, 1, true⟩

/-!  ## Helper lemmas  -/

theorem snapLocVal_idem (eps v : ℝ) :
    snapLocVal eps (snapLocVal eps v) = snapLocVal eps v := by
  by_cases h : |v| < eps
  · simp only [snapLocVal, if_pos h]
    rw [if_pos]
    simpa using lt_of_le_of_lt (abs_nonneg v) h
  · simp only [snapLocVal, if_neg h]

theorem snapSclVal_idem (eps v : ℝ) :
    snapSclVal eps (snapSclVal eps v) = snapSclVal eps v := by
  by_cases h : |v - 1| < eps
  · simp only [snapSclVal, if_pos h]
    rw [if_pos]
    have : (0:ℝ) ≤ |v - 1| := abs_nonneg _
    simpa using lt_of_le_of_lt this h
  · simp only [snapSclVal, if_neg h]

theorem qnormSq_ev1 : qnormSq ⟨5/21, 20/21, 4/21, 0⟩ = 1 := by
  norm_num [qnormSq]

theorem qnorm_ev1 : qnorm ⟨5/21, 20/21, 4/21, 0⟩ = 1 := by
  rw [qnorm, qnormSq_ev1, Real.sqrt_one]

theorem snapRot_ev1 :
    snapRot (4/5) ⟨5/21, 20/21, 4/21, 0⟩ = ⟨21/29, 20/29, 0, 0⟩ := by
  have h1 : qnormalize ⟨5/21, 20/21, 4/21, 0⟩ = ⟨5/21, 20/21, 4/21, 0⟩ := by
    simp only [qnormalize, qnorm_ev1]
    norm_num
  have c1 : |(5:ℝ)/21 - 1| < 4/5 := by rw [abs_lt]; constructor <;> norm_num
  have c2 : ¬ |(20:ℝ)/21| < 4/5 := by
    rw [abs_lt]
    rintro ⟨-, h⟩
    norm_num at h
  have c3 : |(4:ℝ)/21| < 4/5 := by rw [abs_lt]; constructor <;> norm_num
  have c4 : |(0:ℝ)| < 4/5 := by rw [abs_lt]; constructor <;> norm_num
  have h2 : snapRotComps (4/5) ⟨5/21, 20/21, 4/21, 0⟩ = ⟨1, 20/21, 0, 0⟩ := by
    simp only [snapRotComps]
    rw [if_pos c1, if_neg c2, if_pos c3, if_pos c4]
  have h3 : qnorm ⟨1, 20/21, 0, 0⟩ = 29/21 := by
    have : qnormSq ⟨1, 20/21, 0, 0⟩ = (29/21)^2 := by norm_num [qnormSq]
    rw [qnorm, this, Real.sqrt_sq (by norm_num : (0:ℝ) ≤ 29/21)]
  rw [snapRot, h1, h2]
  simp only [qnormalize, h3]
  rw [if_neg (by norm_num)]
  norm_num

theorem snapRot_ev2 :
    snapRot (4/5) ⟨21/29, 20/29, 0, 0⟩ = ⟨1, 0, 0, 0⟩ := by
  have h0 : qnorm ⟨21/29, 20/29, 0, 0⟩ = 1 := by
    have : qnormSq ⟨21/29, 20/29, 0, 0⟩ = 1 := by norm_num [qnormSq]
    rw [qnorm, this, Real.sqrt_one]
  have h1 : qnormalize ⟨21/29, 20/29, 0, 0⟩ = ⟨21/29, 20/29, 0, 0⟩ := by
    simp only [qnormalize, h0]
    norm_num
  have c1 : |(21:ℝ)/29 - 1| < 4/5 := by rw [abs_lt]; constructor <;> norm_num
  have c2 : |(20:ℝ)/29| < 4/5 := by rw [abs_lt]; constructor <;> norm_num
  have c4 : |(0:ℝ)| < 4/5 := by rw [abs_lt]; constructor <;> norm_num
  have h2 : snapRotComps (4/5) ⟨21/29, 20/29, 0, 0⟩ = ⟨1, 0, 0, 0⟩ := by
    simp only [snapRotComps]
    rw [if_pos c1, if_pos c2, if_pos c4]
  have h3 : qnorm ⟨1, 0, 0, 0⟩ = 1 := by
    have : qnormSq ⟨1, 0, 0, 0⟩ = 1 := by norm_num [qnormSq]
    rw [qnorm, this, Real.sqrt_one]
  rw [snapRot, h1, h2]
  simp only [qnormalize, h3]
  norm_num

theorem exportAnnots_foldl_eq (start fin : ℤ) (step : ℚ) :
    ∀ (ms : List (ℤ × String)) (acc : List (ℚ × String)),
      ms.foldl
        (fun acc m =>
          if start ≤ m.1 ∧ m.1 ≤ fin then
            acc ++ [(((m.1 : ℚ) - (start : ℚ)) / step + 1, m.2)]
          else acc)
        acc
      = acc ++ (ms.filter fun m => decide (start ≤ m.1 ∧ m.1 ≤ fin)).map
          (fun m => (((m.1 : ℚ) - (start : ℚ)) / step + 1, m.2)) := by
  intro ms
  induction ms with
  | nil => intro acc; simp
  | cons m rest ih =>
      intro acc
      by_cases h : start ≤ m.1 ∧ m.1 ≤ fin
      · simp only [List.foldl_cons, if_pos h, List.filter_cons, decide_eq_true h,
          List.map_cons, ih]
        simp [List.append_assoc]
      · have hd : decide (start ≤ m.1 ∧ m.1 ≤ fin) = false := by simpa using h
        simp only [List.foldl_cons, if_neg h, List.filter_cons, hd]
        rw [ih]
        simp

/-!  ## Claim C3 — snap idempotence  -/

/-- C3 counterexample: snap is not idempotent as claimed.  At thresholds
`(1/10, 4/5, 1/10)`, the rotation `(5/21, 20/21, 4/21, 0)` snaps once to
`(21/29, 20/29, 0, 0)`, whose second snap collapses to the identity: the
renormalization after component snapping moves the `x` component below the
threshold. -/
theorem snap_idempotence_cx :
    snapTransform (1/10) (4/5) (1/10)
        (snapTransform (1/10) (4/5) (1/10)
          ⟨⟨0, 0, 0⟩, ⟨5/21, 20/21, 4/21, 0⟩, ⟨1, 1, 1⟩⟩)
      ≠ snapTransform (1/10) (4/5) (1/10)
          ⟨⟨0, 0, 0⟩, ⟨5/21, 20/21, 4/21, 0⟩, ⟨1, 1, 1⟩⟩ := by
  intro h
  have hx := congrArg (fun t => t.rot.x) h
  simp only [snapTransform, snapRot_ev1] at hx
  rw [snapRot_ev2] at hx
  norm_num at hx

/-- C3 amended: the translation and scale snap passes are idempotent for
every transform and every threshold triple, but the rotation pass (which
renormalizes after snapping components) is not idempotent in general. -/
theorem snap_loc_scl_idempotent :
    ∀ (leps reps seps : ℝ) (t : Transform),
      (snapTransform leps reps seps (snapTransform leps reps seps t)).loc
          = (snapTransform leps reps seps t).loc
        ∧ (snapTransform leps reps seps (snapTransform leps reps seps t)).scl
          = (snapTransform leps reps seps t).scl := by
  intro leps reps seps t
  constructor
  · simp only [snapTransform, snapLoc]
    rw [snapLocVal_idem, snapLocVal_idem, snapLocVal_idem]
  · simp only [snapTransform, snapScl]
    rw [snapSclVal_idem, snapSclVal_idem, snapSclVal_idem]

/-!  ## Claim C5 — annotation remapping  -/

/-- C5: every pose marker with host frame inside the closed interval
`[frame_interval_start, frame_interval_end]` is appended as an annotation at
index `(frame - start) / frame_step + 1` with the marker text, markers
outside the interval are dropped; with interval `[10, 40]` and step `1`, a
marker at frame `25` maps to index `16` and markers at `5` and `45` are
dropped. -/
theorem export_annots_spec :
    (∀ (start fin : ℤ) (step : ℚ) (ms : List (ℤ × String)),
        exportAnnots start fin step ms
          = (ms.filter fun m => decide (start ≤ m.1 ∧ m.1 ≤ fin)).map
              (fun m => (((m.1 : ℚ) - (start : ℚ)) / step + 1, m.2)))
      ∧ exportAnnots 10 40 1 [(25, "mid"), (5, "early"), (45, "late")]
          = [(16, "mid")] := by
  constructor
  · intro start fin step ms
    rw [exportAnnots, exportAnnots_foldl_eq]
    simp
  · simp only [exportAnnots, List.foldl_cons, List.foldl_nil]
    norm_num

/-!  ## Claim C4 — bone-chain length inference  -/

theorem findConnected_eq_find (ourLoc yAxis : Vec3) :
    ∀ cs : List Vec3,
      findConnected ourLoc yAxis cs
        = (cs.find? fun c => decide (connectedCond ourLoc yAxis c)).map
            (fun c => (c, vlen (vsub c ourLoc))) := by
  intro cs
  induction cs with
  | nil => simp [findConnected]
  | cons c rest ih =>
      by_cases h : connectedCond ourLoc yAxis c
      · simp [findConnected, h, List.find?_cons, decide_eq_true h]
      · have hd : decide (connectedCond ourLoc yAxis c) = false := by simpa using h
        simp [findConnected, h, List.find?_cons, hd, ih]

theorem vlen_cx_child : vlen ⟨9/1000000, 12/1000000, 0⟩ = 15/1000000 := by
  have : vdot ⟨9/1000000, 12/1000000, 0⟩ ⟨9/1000000, 12/1000000, 0⟩
      = ((15:ℝ)/1000000)^2 := by
    norm_num [vdot]
  rw [vlen, this, Real.sqrt_sq (by norm_num : (0:ℝ) ≤ 15/1000000)]

theorem vlen_cx_rej : vlen ⟨9/1000000, 0, 0⟩ = 9/1000000 := by
  have : vdot ⟨9/1000000, 0, 0⟩ ⟨9/1000000, 0, 0⟩ = ((9:ℝ)/1000000)^2 := by
    norm_num [vdot]
  rw [vlen, this, Real.sqrt_sq (by norm_num : (0:ℝ) ≤ 9/1000000)]

theorem connectedCond_cx :
    connectedCond ⟨0, 0, 0⟩ ⟨0, 1, 0⟩ ⟨9/1000000, 12/1000000, 0⟩ := by
  have hsub : vsub (⟨9/1000000, 12/1000000, 0⟩ : Vec3) ⟨0, 0, 0⟩
      = ⟨9/1000000, 12/1000000, 0⟩ := by
    simp [vsub]
  have hdot : vdot (⟨9/1000000, 12/1000000, 0⟩ : Vec3) ⟨0, 1, 0⟩
      = 12/1000000 := by
    norm_num [vdot]
  have hrej : vsub (⟨9/1000000, 12/1000000, 0⟩ : Vec3)
      (vsmul (12/1000000) ⟨0, 1, 0⟩) = ⟨9/1000000, 0, 0⟩ := by
    simp only [vsmul, vsub]
    norm_num
  refine ⟨?_, ?_, ?_⟩
  · rw [hsub, vlen_cx_child]
    norm_num
  · rw [hsub, hdot]
    norm_num
  · rw [hsub, hdot, hrej, vlen_cx_rej]
    norm_num

/-- C4 counterexample: the claim says the selected child's projected
distance becomes the bone length; the code stores `separation.length`
instead.  For a bone at the origin with local Y axis `(0,1,0)` and a single
connected child at `(9e-6, 12e-6, 0)`, the projected distance is `12e-6`
but the assigned length is the separation length `15e-6`. -/
theorem bone_length_projection_cx :
    boneLengthFrom ⟨0, 0, 0⟩ ⟨0, 1, 0⟩ [⟨9/1000000, 12/1000000, 0⟩]
        = 15/1000000
      ∧ vdot (vsub ⟨9/1000000, 12/1000000, 0⟩ ⟨0, 0, 0⟩) ⟨0, 1, 0⟩
          = 12/1000000
      ∧ (15/1000000 : ℝ) ≠ 12/1000000 := by
  have hsub : vsub (⟨9/1000000, 12/1000000, 0⟩ : Vec3) ⟨0, 0, 0⟩
      = ⟨9/1000000, 12/1000000, 0⟩ := by
    simp [vsub]
  refine ⟨?_, ?_, by norm_num⟩
  · rw [boneLengthFrom]
    rw [show findConnected ⟨0, 0, 0⟩ ⟨0, 1, 0⟩ [⟨9/1000000, 12/1000000, 0⟩]
          = some (⟨9/1000000, 12/1000000, 0⟩, 15/1000000) from ?_]
    · rw [findConnected, if_pos connectedCond_cx, hsub, vlen_cx_child]
  · rw [hsub]
    norm_num [vdot]

/-- C4 amended: a candidate child is connected iff the separation vector is
longer than `1e-5`, has non-negative scalar projection on the bone's local
Y axis, and has rejection from that axis shorter than `1e-5`; the first
match in iteration order is selected, the bone's length becomes the
distance (separation length) to that child — not the projected distance —
and a bone with no connected child keeps length `1`. -/
theorem find_connected_spec :
    ∀ (ourLoc yAxis : Vec3) (cs : List Vec3),
      (findConnected ourLoc yAxis cs
          = (cs.find? fun c => decide (connectedCond ourLoc yAxis c)).map
              (fun c => (c, vlen (vsub c ourLoc))))
        ∧ (∀ c, connectedCond ourLoc yAxis c ↔
            (vlen (vsub c ourLoc) > 1e-5
              ∧ vdot (vsub c ourLoc) yAxis ≥ 0
              ∧ vlen (vsub (vsub c ourLoc)
                  (vsmul (vdot (vsub c ourLoc) yAxis) yAxis)) < 1e-5))
        ∧ boneLengthFrom ourLoc yAxis cs
            = ((cs.find? fun c => decide (connectedCond ourLoc yAxis c)).map
                (fun c => vlen (vsub c ourLoc))).getD 1 := by
  intro ourLoc yAxis cs
  refine ⟨findConnected_eq_find ourLoc yAxis cs, fun c => Iff.rfl, ?_⟩
  rw [boneLengthFrom, findConnected_eq_find]
  cases cs.find? fun c => decide (connectedCond ourLoc yAxis c) with
  | none => rfl
  | some c => rfl

/-!  ## Claim C1 — import transcoding of a transform track  -/

theorem importTransform_go (decompose : Matrix (Fin 4) (Fin 4) ℝ → Transform)
    (lengthScale : ℝ) (rotM rotInv : Matrix (Fin 4) (Fin 4) ℝ) :
    ∀ (keys : List TKey) (cs : Curves10),
      keys.foldl
        (fun cs k =>
          let t := importKeyValue decompose lengthScale rotM rotInv k.loc k.rot k.scl
          { locx := cs.locx ++ [(k.frame, t.loc.x)]
            locy := cs.locy ++ [(k.frame, t.loc.y)]
            locz := cs.locz ++ [(k.frame, t.loc.z)]
            rotw := cs.rotw ++ [(k.frame, t.rot.w)]
            rotx := cs.rotx ++ [(k.frame, t.rot.x)]
            roty := cs.roty ++ [(k.frame, t.rot.y)]
            rotz := cs.rotz ++ [(k.frame, t.rot.z)]
            sclx := cs.sclx ++ [(k.frame, t.scl.x)]
            scly := cs.scly ++ [(k.frame, t.scl.y)]
            sclz := cs.sclz ++ [(k.frame, t.scl.z)] })
        cs
      = { locx := cs.locx ++ keys.map fun k =>
            (k.frame, (importKeyValue decompose lengthScale rotM rotInv k.loc k.rot k.scl).loc.x)
          locy := cs.locy ++ keys.map fun k =>
            (k.frame, (importKeyValue decompose lengthScale rotM rotInv k.loc k.rot k.scl).loc.y)
          locz := cs.locz ++ keys.map fun k =>
            (k.frame, (importKeyValue decompose lengthScale rotM rotInv k.loc k.rot k.scl).loc.z)
          rotw := cs.rotw ++ keys.map fun k =>
            (k.frame, (importKeyValue decompose lengthScale rotM rotInv k.loc k.rot k.scl).rot.w)
          rotx := cs.rotx ++ keys.map fun k =>
            (k.frame, (importKeyValue decompose lengthScale rotM rotInv k.loc k.rot k.scl).rot.x)
          roty := cs.roty ++ keys.map fun k =>
            (k.frame, (importKeyValue decompose lengthScale rotM rotInv k.loc k.rot k.scl).rot.y)
          rotz := cs.rotz ++ keys.map fun k =>
            (k.frame, (importKeyValue decompose lengthScale rotM rotInv k.loc k.rot k.scl).rot.z)
          sclx := cs.sclx ++ keys.map fun k =>
            (k.frame, (importKeyValue decompose lengthScale rotM rotInv k.loc k.rot k.scl).scl.x)
          scly := cs.scly ++ keys.map fun k =>
            (k.frame, (importKeyValue decompose lengthScale rotM rotInv k.loc k.rot k.scl).scl.y)
          sclz := cs.sclz ++ keys.map fun k =>
            (k.frame, (importKeyValue decompose lengthScale rotM rotInv k.loc k.rot k.scl).scl.z) } := by
  intro keys
  induction keys with
  | nil => intro cs; simp
  | cons k rest ih =>
      intro cs
      rw [List.foldl_cons, ih]
      simp [List.append_assoc]

/-- C1: on import, each transform-track key is converted by dividing the
translation by `length_scale`, composing `(loc, rot, scl)` to a matrix `m`,
conjugating by the axis frame as `framerotinv * m * framerot`, decomposing,
and snapping with thresholds `(1e-4, 1e-3, 1e-4)` (this is
`importKeyValue`); the resulting value is written, component by component,
into the ten destination F-Curves at the same frame index as the source
key. -/
theorem import_transform_track_spec
    (decompose : Matrix (Fin 4) (Fin 4) ℝ → Transform) (lengthScale : ℝ)
    (rotM rotInv : Matrix (Fin 4) (Fin 4) ℝ) (keys : List TKey) :
    importTransform decompose lengthScale rotM rotInv keys
      = { locx := keys.map fun k =>
            (k.frame, (snapTransform (1e-4) (1e-3) (1e-4) (decompose
              (rotInv * locRotScale (vdivs k.loc lengthScale) k.rot k.scl * rotM))).loc.x)
          locy := keys.map fun k =>
            (k.frame, (snapTransform (1e-4) (1e-3) (1e-4) (decompose
              (rotInv * locRotScale (vdivs k.loc lengthScale) k.rot k.scl * rotM))).loc.y)
          locz := keys.map fun k =>
            (k.frame, (snapTransform (1e-4) (1e-3) (1e-4) (decompose
              (rotInv * locRotScale (vdivs k.loc lengthScale) k.rot k.scl * rotM))).loc.z)
          rotw := keys.map fun k =>
            (k.frame, (snapTransform (1e-4) (1e-3) (1e-4) (decompose
              (rotInv * locRotScale (vdivs k.loc lengthScale) k.rot k.scl * rotM))).rot.w)
          rotx := keys.map fun k =>
            (k.frame, (snapTransform (1e-4) (1e-3) (1e-4) (decompose
              (rotInv * locRotScale (vdivs k.loc lengthScale) k.rot k.scl * rotM))).rot.x)
          roty := keys.map fun k =>
            (k.frame, (snapTransform (1e-4) (1e-3) (1e-4) (decompose
              (rotInv * locRotScale (vdivs k.loc lengthScale) k.rot k.scl * rotM))).rot.y)
          rotz := keys.map fun k =>
            (k.frame, (snapTransform (1e-4) (1e-3) (1e-4) (decompose
              (rotInv * locRotScale (vdivs k.loc lengthScale) k.rot k.scl * rotM))).rot.z)
          sclx := keys.map fun k =>
            (k.frame, (snapTransform (1e-4) (1e-3) (1e-4) (decompose
              (rotInv * locRotScale (vdivs k.loc lengthScale) k.rot k.scl * rotM))).scl.x)
          scly := keys.map fun k =>
            (k.frame, (snapTransform (1e-4) (1e-3) (1e-4) (decompose
              (rotInv * locRotScale (vdivs k.loc lengthScale) k.rot k.scl * rotM))).scl.y)
          sclz := keys.map fun k =>
            (k.frame, (snapTransform (1e-4) (1e-3) (1e-4) (decompose
              (rotInv * locRotScale (vdivs k.loc lengthScale) k.rot k.scl * rotM))).scl.z) } := by
  rw [importTransform, importTransform_go]
  simp [emptyCurves, importKeyValue]

/-!  ## Claim C2 — export sampling of transform tracks  -/

theorem exportFrameLoop_spec (decompose : Matrix (Fin 4) (Fin 4) ℝ → Transform)
    (pose : String → ℚ → Matrix (Fin 4) (Fin 4) ℝ)
    (lengthScale : ℝ) (rotM : Matrix (Fin 4) (Fin 4) ℝ)
    (fps framestep : ℚ) (start : ℤ) (bones : List String) (sf0 : ℤ) :
    ∀ frames : ℕ,
      (exportFrameLoop decompose pose lengthScale rotM fps framestep start
          frames bones sf0).fsets
        = (List.range frames).map (frameSetArgs fps start framestep)
      ∧ (exportFrameLoop decompose pose lengthScale rotM fps framestep start
          frames bones sf0).tracks
        = bones.map fun b => (List.range frames).map fun i =>
            (i, exportKeyValue decompose lengthScale rotM
              (pose b (((frameSetArgs fps start framestep i).1 : ℚ)
                + (frameSetArgs fps start framestep i).2))) := by
  intro frames
  induction frames with
  | zero => simp [exportFrameLoop]
  | succ n ih =>
      have hfold :
          exportFrameLoop decompose pose lengthScale rotM fps framestep start
              (n + 1) bones sf0
            = (let acc := exportFrameLoop decompose pose lengthScale rotM fps
                framestep start n bones sf0
               let fa := frameSetArgs fps start framestep n
               let t : ℚ := (fa.1 : ℚ) + fa.2
               { sceneFrame := fa.1
                 fsets := acc.fsets ++ [fa]
                 tracks := acc.tracks.zipWith
                   (fun tr b =>
                     tr ++ [(n, exportKeyValue decompose lengthScale rotM (pose b t))])
                   bones }) := by
        rw [exportFrameLoop, exportFrameLoop, List.range_succ, List.foldl_append,
          List.foldl_cons, List.foldl_nil]
      rw [hfold]
      refine ⟨?_, ?_⟩
      · simp only [ih.1, List.range_succ, List.map_append, List.map_cons, List.map_nil]
      · simp only [ih.2]
        rw [List.zipWith_map_left, List.zipWith_same]
        rw [show (List.range (n + 1)) = List.range n ++ [n] from List.range_succ n]
        simp [List.map_append]

/-- C2: on export, for every sampled frame index `i` and every selected
bone, the host pose read at the scene time set for `i` is decomposed,
snapped with thresholds `(1e-5, 1e-3, 1e-5)`, recomposed and right-multiplied
by the axis frame's forward matrix, decomposed again, its translation
multiplied by `length_scale`, and the result appended to the bone's track as
a key at the current sample index `i`. -/
theorem export_animation_track_spec
    (decompose : Matrix (Fin 4) (Fin 4) ℝ → Transform)
    (pose : String → ℚ → Matrix (Fin 4) (Fin 4) ℝ)
    (lengthScale : ℝ) (rotM : Matrix (Fin 4) (Fin 4) ℝ)
    (fps framestep : ℚ) (start : ℤ) (frames : ℕ) (bones : List String)
    (sf0 : ℤ) :
    (exportFrameLoop decompose pose lengthScale rotM fps framestep start
        frames bones sf0).tracks
      = bones.map fun b => (List.range frames).map fun i =>
          (i,
            let t1 := snapTransform (1e-5) (1e-3) (1e-5) (decompose
              (pose b (((frameSetArgs fps start framestep i).1 : ℚ)
                + (frameSetArgs fps start framestep i).2)))
            let t2 := decompose (locRotScale t1.loc t1.rot t1.scl * rotM)
            (⟨vmuls t2.loc lengthScale, t2.rot, t2.scl⟩ : Transform)) := by
  rw [(exportFrameLoop_spec decompose pose lengthScale rotM fps framestep start
    bones sf0 frames).2]
  rfl

/-!  ## Operator control-flow lemmas  -/

theorem axisPerp_YZ : axisPerp Axis.Y Axis.Z := by
  norm_num [axisPerp, dotQ, axisVec]

theorem exportAnimationM_empty (decompose : Matrix (Fin 4) (Fin 4) ℝ → Transform)
    (pose : String → ℚ → Matrix (Fin 4) (Fin 4) ℝ) (L : ℝ)
    (rotM : Matrix (Fin 4) (Fin 4) ℝ) (fps framestep : ℚ) (start fin : ℤ)
    (frames : ℕ) (arm : ExpArm) (doc : List Anim) (f : ℤ)
    (h : arm.selBones = []) :
    exportAnimationM decompose pose L rotM fps framestep start fin frames arm doc f
      = (doc, f, [ExpEv.warnNoBones arm.name]) := by
  rw [exportAnimationM, if_pos h]

theorem exportAnimationM_nonempty (decompose : Matrix (Fin 4) (Fin 4) ℝ → Transform)
    (pose : String → ℚ → Matrix (Fin 4) (Fin 4) ℝ) (L : ℝ)
    (rotM : Matrix (Fin 4) (Fin 4) ℝ) (fps framestep : ℚ) (start fin : ℤ)
    (frames : ℕ) (arm : ExpArm) (doc : List Anim) (f : ℤ)
    (h : ¬ arm.selBones = []) :
    exportAnimationM decompose pose L rotM fps framestep start fin frames arm doc f
      = (doc ++ [⟨(exportFrameLoop decompose pose L rotM fps framestep start
            frames arm.selBones f).tracks,
          exportAnnots start fin framestep arm.markers⟩], f, []) := by
  rw [exportAnimationM, if_neg h]

theorem exportArmsLoop_frame (decompose : Matrix (Fin 4) (Fin 4) ℝ → Transform)
    (pose : String → String → ℚ → Matrix (Fin 4) (Fin 4) ℝ) (L : ℝ)
    (rotM : Matrix (Fin 4) (Fin 4) ℝ) (fps framestep : ℚ) (start fin : ℤ)
    (frames : ℕ) :
    ∀ (arms : List ExpArm) (doc : List Anim) (f : ℤ) (evs : List ExpEv),
      (exportArmsLoop decompose pose L rotM fps framestep start fin frames
          arms (doc, f, evs)).2.1 = f := by
  intro arms
  induction arms with
  | nil => intro doc f evs; rfl
  | cons arm rest ih =>
      intro doc f evs
      unfold exportArmsLoop
      rw [List.foldl_cons]
      by_cases h : arm.selBones = []
      · rw [exportAnimationM_empty _ _ _ _ _ _ _ _ _ _ _ _ h]
        exact ih _ _ _
      · rw [exportAnimationM_nonempty _ _ _ _ _ _ _ _ _ _ _ _ h]
        exact ih _ _ _

theorem exportArmsLoop_events (decompose : Matrix (Fin 4) (Fin 4) ℝ → Transform)
    (pose : String → String → ℚ → Matrix (Fin 4) (Fin 4) ℝ) (L : ℝ)
    (rotM : Matrix (Fin 4) (Fin 4) ℝ) (fps framestep : ℚ) (start fin : ℤ)
    (frames : ℕ) :
    ∀ (arms : List ExpArm) (doc : List Anim) (f : ℤ) (evs : List ExpEv),
      (exportArmsLoop decompose pose L rotM fps framestep start fin frames
          arms (doc, f, evs)).2.2
        = evs ++ (arms.filter fun a => a.selBones.isEmpty).map
            (fun a => ExpEv.warnNoBones a.name) := by
  intro arms
  induction arms with
  | nil => intro doc f evs; simp [exportArmsLoop]
  | cons arm rest ih =>
      intro doc f evs
      unfold exportArmsLoop
      rw [List.foldl_cons]
      by_cases h : arm.selBones = []
      · rw [exportAnimationM_empty _ _ _ _ _ _ _ _ _ _ _ _ h]
        have := ih doc f (evs ++ [ExpEv.warnNoBones arm.name])
        unfold exportArmsLoop at this
        rw [this]
        have hb : arm.selBones.isEmpty = true := by simp [h]
        simp [List.filter_cons, hb]
      · rw [exportAnimationM_nonempty _ _ _ _ _ _ _ _ _ _ _ _ h]
        have := ih (doc ++ [⟨(exportFrameLoop decompose (pose arm.name) L rotM
          fps framestep start frames arm.selBones f).tracks,
          exportAnnots start fin framestep arm.markers⟩]) f (evs ++ [])
        unfold exportArmsLoop at this
        rw [this]
        have hb : arm.selBones.isEmpty = false := by simpa using h
        simp [List.filter_cons, hb]

theorem exportArmsLoop_docNil (decompose : Matrix (Fin 4) (Fin 4) ℝ → Transform)
    (pose : String → String → ℚ → Matrix (Fin 4) (Fin 4) ℝ) (L : ℝ)
    (rotM : Matrix (Fin 4) (Fin 4) ℝ) (fps framestep : ℚ) (start fin : ℤ)
    (frames : ℕ) :
    ∀ (arms : List ExpArm) (doc : List Anim) (f : ℤ) (evs : List ExpEv),
      ((exportArmsLoop decompose pose L rotM fps framestep start fin frames
          arms (doc, f, evs)).1 = []
        ↔ (doc = [] ∧ ∀ a ∈ arms, a.selBones = [])) := by
  intro arms
  induction arms with
  | nil => intro doc f evs; simp [exportArmsLoop]
  | cons arm rest ih =>
      intro doc f evs
      unfold exportArmsLoop
      rw [List.foldl_cons]
      by_cases h : arm.selBones = []
      · rw [exportAnimationM_empty _ _ _ _ _ _ _ _ _ _ _ _ h]
        have := ih doc f (evs ++ [ExpEv.warnNoBones arm.name])
        unfold exportArmsLoop at this
        rw [this]
        simp [h]
      · rw [exportAnimationM_nonempty _ _ _ _ _ _ _ _ _ _ _ _ h]
        have := ih (doc ++ [⟨(exportFrameLoop decompose (pose arm.name) L rotM
          fps framestep start frames arm.selBones f).tracks,
          exportAnnots start fin framestep arm.markers⟩]) f (evs ++ [])
        unfold exportArmsLoop at this
        rw [this]
        simp [h]

theorem exportRun_state (decompose : Matrix (Fin 4) (Fin 4) ℝ → Transform)
    (pose : String → String → ℚ → Matrix (Fin 4) (Fin 4) ℝ) (L : ℝ)
    (ctx : ExpCtx) :
    (exportRun decompose pose L ctx).finalFrame = ctx.frame0
      ∧ (exportRun decompose pose L ctx).finalActive = ctx.active0 := by
  simp only [exportRun]
  split_ifs <;>
    exact ⟨exportArmsLoop_frame _ _ _ _ _ _ _ _ _ _ _ _ _, rfl⟩

theorem exportExecute_state (decompose : Matrix (Fin 4) (Fin 4) ℝ → Transform)
    (pose : String → String → ℚ → Matrix (Fin 4) (Fin 4) ℝ) (L : ℝ)
    (ctx : ExpCtx) :
    (exportExecute decompose pose L ctx).finalFrame = ctx.frame0
      ∧ (exportExecute decompose pose L ctx).finalActive = ctx.active0 := by
  unfold exportExecute
  split_ifs <;>
    first
      | exact ⟨rfl, rfl⟩
      | exact exportRun_state decompose pose L ctx

/-!  ## Claim C10 — export restores scene frame and active object  -/

/-- C10: after a successful export, the scene's current frame equals the
frame saved before the sampling loop (each `export_animation` restores it
with `frame_set`), and the active object saved at the start of `execute` is
reinstated after all animations are exported. -/
theorem export_restores_state_spec (decompose : Matrix (Fin 4) (Fin 4) ℝ → Transform)
    (pose : String → String → ℚ → Matrix (Fin 4) (Fin 4) ℝ) (L : ℝ)
    (ctx : ExpCtx)
    (_hok : (exportExecute decompose pose L ctx).cancelled = false) :
    (exportExecute decompose pose L ctx).finalFrame = ctx.frame0
      ∧ (exportExecute decompose pose L ctx).finalActive = ctx.active0 :=
  exportExecute_state decompose pose L ctx

/-- C10 witness: a concrete successful export run (single armature, nothing
to sample) restores frame `7` and active object `"Obj"`. -/
theorem export_restores_state_spec_witness :
    (exportExecute (fun _ => tId) (fun _ _ _ => 1) 1 ctxNoBones).cancelled = false
      ∧ (exportExecute (fun _ => tId) (fun _ _ _ => 1) 1 ctxNoBones).finalFrame = 7
      ∧ (exportExecute (fun _ => tId) (fun _ _ _ => 1) 1 ctxNoBones).finalActive = "Obj" := by
  have hok : (exportExecute (fun _ => tId) (fun _ _ _ => 1) 1 ctxNoBones).cancelled = false := by
    norm_num [exportExecute, exportRun, exportArmsLoop, exportAnimationM,
      warnsOf, ctxNoBones, axisPerp_YZ]
  have h := export_restores_state_spec (fun _ => tId) (fun _ _ _ => 1) 1 ctxNoBones hok
  exact ⟨hok, h.1, h.2⟩

/-!  ## Claim C7 — empty interval and empty selection  -/

/-- C7 counterexample: an export run whose single armature has no selected
bones succeeds (`FINISHED`) with a warning and never invokes the converter —
EmptySelection is not a fatal condition as the claim states. -/
theorem empty_selection_not_fatal_cx :
    (exportExecute (fun _ => tId) (fun _ _ _ => 1) 1 ctxNoBones).cancelled = false
      ∧ ExpEv.warnNoBones "Arm" ∈ (exportExecute (fun _ => tId) (fun _ _ _ => 1) 1 ctxNoBones).events
      ∧ ExpEv.converterRun ∉ (exportExecute (fun _ => tId) (fun _ _ _ => 1) 1 ctxNoBones).events := by
  norm_num [exportExecute, exportRun, exportArmsLoop, exportAnimationM,
    warnsOf, ctxNoBones, axisPerp_YZ]
  exact fun h => ExpEv.noConfusion h

/-- C7 amended: EmptyInterval is fatal for the export and is reported
before any external converter invocation; an empty bone selection, however,
is reported as a warning and the armature is skipped — when every selected
armature has an empty bone selection the converter is never invoked and the
operation completes without error. -/
theorem empty_interval_fatal_spec
    (decompose : Matrix (Fin 4) (Fin 4) ℝ → Transform)
    (pose : String → String → ℚ → Matrix (Fin 4) (Fin 4) ℝ) (L : ℝ)
    (ctx : ExpCtx)
    (hax : axisPerp ctx.bf ctx.bu) (htool : ctx.toolFound = true)
    (harms : ctx.arms.length ≠ 0) (hact : ctx.activeSel = true)
    (hlen : ¬ 2 < ctx.arms.length) (hpri : ctx.primaryOk = true)
    (hsec : ¬ (1 < ctx.arms.length ∧ ctx.secondaryOk = false)) :
    (¬ ctx.start < ctx.fin →
        (exportExecute decompose pose L ctx).cancelled = true
          ∧ ExpEv.errEmptyInterval ∈ (exportExecute decompose pose L ctx).events
          ∧ ExpEv.converterRun ∉ (exportExecute decompose pose L ctx).events)
      ∧ (ctx.start < ctx.fin → (∀ a ∈ ctx.arms, a.selBones = []) →
          (exportExecute decompose pose L ctx).cancelled = false
            ∧ ExpEv.converterRun ∉ (exportExecute decompose pose L ctx).events
            ∧ ∀ a ∈ ctx.arms,
                ExpEv.warnNoBones a.name ∈ (exportExecute decompose pose L ctx).events) := by
  have hred : exportExecute decompose pose L ctx
      = if ¬ ctx.start < ctx.fin then
          ⟨true, [ExpEv.errEmptyInterval], [], ctx.frame0, ctx.active0⟩
        else exportRun decompose pose L ctx := by
    unfold exportExecute
    rw [if_neg (not_not_intro hax), if_neg (by simp [htool]),
      if_neg (by simp [harms, hact]), if_neg hlen, if_neg (by simp [hpri]),
      if_neg hsec]
  constructor
  · intro hint
    rw [hred, if_pos hint]
    refine ⟨rfl, by simp, by simp⟩
  · intro hint hall
    rw [hred, if_neg (not_not_intro hint)]
    simp only [exportRun]
    rw [if_pos (by
      rw [List.isEmpty_iff]
      exact (exportArmsLoop_docNil _ _ _ _ _ _ _ _ _ _ _ _ _).mpr ⟨rfl, hall⟩)]
    rw [exportArmsLoop_events _ _ _ _ _ _ _ _ _ _ _ _ _]
    have h1 : ExpEv.converterRun ∉ warnsOf ctx.fps := by
      unfold warnsOf
      split <;> simp
    refine ⟨rfl, ?_, ?_⟩
    · intro hmem
      rcases List.mem_append.mp hmem with hw | hm
      · exact h1 hw
      · rcases List.mem_map.mp hm with ⟨a, -, hne⟩
        exact ExpEv.noConfusion hne
    · intro a ha
      refine List.mem_append.mpr (Or.inr ?_)
      refine List.mem_map.mpr ⟨a, ?_, rfl⟩
      refine List.mem_filter.mpr ⟨ha, ?_⟩
      simp [hall a ha]

/-- C7 witness: the amended theorem applied to a concrete context with an
empty frame interval (part one) and to a concrete context whose armature
has no selected bones (part two). -/
theorem empty_interval_fatal_spec_witness :
    ((exportExecute (fun _ => tId) (fun _ _ _ => 1) 1 ctxEmptyInterval).cancelled = true
        ∧ ExpEv.errEmptyInterval ∈ (exportExecute (fun _ => tId) (fun _ _ _ => 1) 1 ctxEmptyInterval).events
        ∧ ExpEv.converterRun ∉ (exportExecute (fun _ => tId) (fun _ _ _ => 1) 1 ctxEmptyInterval).events)
      ∧ ((exportExecute (fun _ => tId) (fun _ _ _ => 1) 1 ctxNoBones).cancelled = false
        ∧ ExpEv.converterRun ∉ (exportExecute (fun _ => tId) (fun _ _ _ => 1) 1 ctxNoBones).events) := by
  constructor
  · exact (empty_interval_fatal_spec (fun _ => tId) (fun _ _ _ => 1) 1
      ctxEmptyInterval axisPerp_YZ rfl (by norm_num [ctxEmptyInterval])
      rfl (by norm_num [ctxEmptyInterval]) rfl
      (by norm_num [ctxEmptyInterval])).1 (by norm_num [ctxEmptyInterval])
  · have h := (empty_interval_fatal_spec (fun _ => tId) (fun _ _ _ => 1) 1
      ctxNoBones axisPerp_YZ rfl (by norm_num [ctxNoBones])
      rfl (by norm_num [ctxNoBones]) rfl
      (by norm_num [ctxNoBones])).2 (by norm_num [ctxNoBones])
      (by
        intro a ha
        simp only [ctxNoBones] at ha
        rcases List.mem_singleton.mp ha with rfl
        rfl)
    exact ⟨h.1, h.2.1⟩

/-!  ## Claim C8 — import structural mismatch  -/

/-- C8: on import with a non-zero number of selected armatures differing
from the document's animation count, the operation fails with the
structural-mismatch error and commits no tracks to any armature. -/
theorem import_mismatch_spec (ctx : ImpCtx)
    (hax : axisPerp ctx.bf ctx.bu) (htool : ctx.toolFound = true)
    (hun : ctx.unpackOk = true) (hA : ctx.selArms ≠ 0)
    (hN : ctx.selArms ≠ ctx.docAnims) :
    (importExecute ctx).cancelled = true
      ∧ ImpEv.errMismatch ∈ (importExecute ctx).events
      ∧ ImpEv.trackCommit ∉ (importExecute ctx).events := by
  unfold importExecute
  rw [if_neg (not_not_intro hax)]
  rw [if_neg (by simp [htool]), if_neg (by simp [hun]), if_neg hA, if_pos hN]
  refine ⟨rfl, ?_, ?_⟩
  · exact List.mem_append.mpr (Or.inr (by simp))
  · intro hmem
    rcases List.mem_append.mp hmem with hw | hm
    · revert hw
      split <;> simp
    · simp at hm

/-- C8 witness: two selected armatures against a document with three
animations — the operation cancels with the mismatch error and commits no
tracks. -/
theorem import_mismatch_spec_witness :
    (importExecute ctxMismatch).cancelled = true
      ∧ ImpEv.errMismatch ∈ (importExecute ctxMismatch).events
      ∧ ImpEv.trackCommit ∉ (importExecute ctxMismatch).events :=
  import_mismatch_spec ctxMismatch axisPerp_YZ rfl rfl
    (by norm_num [ctxMismatch]) (by norm_num [ctxMismatch])

/-!  ## Claim C6 — sampling-rate reconciliation  -/

theorem pyRound_intCast (n : ℤ) : pyRound (n : ℚ) = n := by
  unfold pyRound
  rw [Int.floor_intCast]
  norm_num

theorem warnFps_mem_warnsOf (fps : ℚ) :
    ExpEv.warnFps ∈ warnsOf fps ↔ fps ≠ 30 := by
  unfold warnsOf
  split <;> simp_all

theorem exportRun_warnFps (decompose : Matrix (Fin 4) (Fin 4) ℝ → Transform)
    (pose : String → String → ℚ → Matrix (Fin 4) (Fin 4) ℝ) (L : ℝ)
    (ctx : ExpCtx) :
    (ExpEv.warnFps ∈ (exportRun decompose pose L ctx).events ↔ ctx.fps ≠ 30) := by
  simp only [exportRun]
  rw [exportArmsLoop_events _ _ _ _ _ _ _ _ _ _ _ _ _]
  split_ifs <;>
    simp [List.mem_append, warnFps_mem_warnsOf]

theorem exportRun_cancel (decompose : Matrix (Fin 4) (Fin 4) ℝ → Transform)
    (pose : String → String → ℚ → Matrix (Fin 4) (Fin 4) ℝ) (L : ℝ)
    (ctx : ExpCtx) :
    ((exportRun decompose pose L ctx).cancelled = true
      ↔ ¬ (∀ a ∈ ctx.arms, a.selBones = []) ∧ ctx.converterOk = false) := by
  simp only [exportRun]
  split_ifs with hE hC
  · have hall := ((exportArmsLoop_docNil _ _ _ _ _ _ _ _ _ _ _ _ _).mp
      (List.isEmpty_iff.mp hE)).2
    simp [hall]
    intro x hx hne
    exact absurd (hall x hx) hne
  · simp [hC]
  · have hne : ¬ ((exportArmsLoop decompose pose L
        (frameRot Axis.Y Axis.Z ctx.bf ctx.bu) ctx.fps (exportFramestep ctx.fps)
        ctx.start ctx.fin (exportFrames ctx.fps ctx.start ctx.fin).toNat
        ctx.arms ([], ctx.frame0, warnsOf ctx.fps)).1 = []) := by
      intro hnil
      exact hE (List.isEmpty_iff.mpr hnil)
    have hnall : ¬ ∀ a ∈ ctx.arms, a.selBones = [] := fun hall =>
      hne ((exportArmsLoop_docNil _ _ _ _ _ _ _ _ _ _ _ _ _).mpr ⟨rfl, hall⟩)
    simp [hnall, hC]

theorem importExecute_rate (ctx : ImpCtx) (hax : axisPerp ctx.bf ctx.bu) :
    (importExecute ctx).fpsFinal = 30
      ∧ (ImpEv.warnFps ∈ (importExecute ctx).events ↔ ctx.fps ≠ 30)
      ∧ (importExecute ctx).cancelled = (importExecute {ctx with fps := 30}).cancelled := by
  have h30 : ¬ ((30 : ℚ) ≠ 30) := by norm_num
  refine ⟨?_, ?_, ?_⟩
  · simp only [importExecute]
    rw [if_neg (not_not_intro hax)]
    split_ifs <;> simp_all
  · simp only [importExecute]
    rw [if_neg (not_not_intro hax)]
    split_ifs <;>
      simp_all [List.mem_append, List.mem_replicate, warnFps_mem_warnsOf]
  · simp only [importExecute]
    rw [if_neg (not_not_intro hax), if_neg h30]
    split_ifs <;> rfl

/-- C6: when the host rate differs from the canonical 30 fps, export uses
`frame_step = host_rate / 30`, samples position `start + i * frame_step`
for each index `i` below the sampled-frame count (passing a fractional
sub-frame in `[0, 1)` to the host read), the count equals
`round((fin - start) / frame_step) + 1`, and the rate mismatch is
recoverable on both paths: a warning is surfaced and the operation
continues rather than failing (import resets the rate to 30). -/
theorem sampling_rate_spec :
    (∀ fps : ℚ, exportFramestep fps = fps / 30)
      ∧ (∀ (fps : ℚ) (start fin : ℤ),
          exportFrames fps start fin
            = pyRound (((fin - start : ℤ) : ℚ) / exportFramestep fps) + 1)
      ∧ (∀ (fps : ℚ) (start : ℤ) (i : ℕ),
          ((frameSetArgs fps start (exportFramestep fps) i).1 : ℚ)
              + (frameSetArgs fps start (exportFramestep fps) i).2
            = (start : ℚ) + i * exportFramestep fps)
      ∧ (∀ (fps : ℚ) (start : ℤ) (i : ℕ), 0 < fps → 0 ≤ start →
          0 ≤ (frameSetArgs fps start (exportFramestep fps) i).2
            ∧ (frameSetArgs fps start (exportFramestep fps) i).2 < 1)
      ∧ (∀ (decompose : Matrix (Fin 4) (Fin 4) ℝ → Transform)
          (pose : String → ℚ → Matrix (Fin 4) (Fin 4) ℝ) (L : ℝ)
          (rotM : Matrix (Fin 4) (Fin 4) ℝ) (fps framestep : ℚ) (start : ℤ)
          (frames : ℕ) (bones : List String) (sf0 : ℤ),
          (exportFrameLoop decompose pose L rotM fps framestep start frames
              bones sf0).fsets
            = (List.range frames).map (frameSetArgs fps start framestep))
      ∧ (∀ (decompose : Matrix (Fin 4) (Fin 4) ℝ → Transform)
          (pose : String → String → ℚ → Matrix (Fin 4) (Fin 4) ℝ) (L : ℝ)
          (ctx : ExpCtx),
          axisPerp ctx.bf ctx.bu → ctx.toolFound = true →
          ctx.arms.length ≠ 0 → ctx.activeSel = true →
          ¬ 2 < ctx.arms.length → ctx.primaryOk = true →
          ¬ (1 < ctx.arms.length ∧ ctx.secondaryOk = false) →
          ctx.start < ctx.fin →
          (ExpEv.warnFps ∈ (exportExecute decompose pose L ctx).events
              ↔ ctx.fps ≠ 30)
            ∧ ((exportExecute decompose pose L ctx).cancelled = true
              ↔ ¬ (∀ a ∈ ctx.arms, a.selBones = []) ∧ ctx.converterOk = false))
      ∧ (∀ ctx : ImpCtx, axisPerp ctx.bf ctx.bu →
          (importExecute ctx).fpsFinal = 30
            ∧ (ImpEv.warnFps ∈ (importExecute ctx).events ↔ ctx.fps ≠ 30)
            ∧ (importExecute ctx).cancelled
              = (importExecute {ctx with fps := 30}).cancelled) := by
  refine ⟨fun _ => rfl, ?_, ?_, ?_, ?_, ?_, ?_⟩
  · intro fps start fin
    unfold exportFrames
    by_cases h : fps ≠ 30
    · rw [if_pos h]
    · rw [if_neg h]
      push_neg at h
      subst h
      rw [show exportFramestep 30 = 1 from by norm_num [exportFramestep]]
      rw [div_one, pyRound_intCast]
  · intro fps start i
    unfold frameSetArgs
    by_cases h : fps = 30
    · rw [if_pos h]
      subst h
      norm_num [exportFramestep]
    · rw [if_neg h]
      push_cast
      ring
  · intro fps start i hfps hstart
    unfold frameSetArgs
    by_cases h : fps = 30
    · rw [if_pos h]
      norm_num
    · rw [if_neg h]
      have hp : 0 ≤ (start : ℚ) + i * exportFramestep fps := by
        have h1 : (0:ℚ) ≤ (start : ℚ) := by exact_mod_cast hstart
        have h2 : (0:ℚ) ≤ (i : ℚ) * exportFramestep fps := by
          have : (0:ℚ) < exportFramestep fps := by
            unfold exportFramestep
            positivity
          positivity
        linarith
      have htr : pyTrunc ((start : ℚ) + i * exportFramestep fps)
          = ⌊(start : ℚ) + i * exportFramestep fps⌋ := by
        rw [pyTrunc, if_pos hp]
      simp only [htr]
      constructor
      · simp [Int.floor_le ((start : ℚ) + i * exportFramestep fps)]
      · have := Int.lt_floor_add_one ((start : ℚ) + i * exportFramestep fps)
        have h2 : ((start : ℚ) + i * exportFramestep fps)
            - ⌊(start : ℚ) + i * exportFramestep fps⌋ < 1 := by linarith
        simpa using h2
  · intro decompose pose L rotM fps framestep start frames bones sf0
    exact (exportFrameLoop_spec decompose pose L rotM fps framestep start
      bones sf0 frames).1
  · intro decompose pose L ctx hax htool harms hact hlen hpri hsec hint
    have hred : exportExecute decompose pose L ctx
        = exportRun decompose pose L ctx := by
      unfold exportExecute
      rw [if_neg (not_not_intro hax), if_neg (by simp [htool]),
        if_neg (by simp [harms, hact]), if_neg hlen, if_neg (by simp [hpri]),
        if_neg hsec, if_neg (not_not_intro hint)]
    rw [hred]
    exact ⟨exportRun_warnFps decompose pose L ctx,
      exportRun_cancel decompose pose L ctx⟩
  · intro ctx hax
    exact importExecute_rate ctx hax

/-- C6 witness: the sampling specification instantiated at a 60 fps export
over `[10, 40]` (frame step 2, 16 sampled frames, warning surfaced, run not
cancelled) and a 24 fps import (warning surfaced, rate reset to 30). -/
theorem sampling_rate_spec_witness :
    exportFrames 60 10 40 = pyRound (((40 - 10 : ℤ) : ℚ) / exportFramestep 60) + 1
      ∧ (0 ≤ (frameSetArgs 60 10 (exportFramestep 60) 3).2
          ∧ (frameSetArgs 60 10 (exportFramestep 60) 3).2 < 1)
      ∧ (ExpEv.warnFps ∈ (exportExecute (fun _ => tId) (fun _ _ _ => 1) 1 ctxRate).events
          ↔ (60 : ℚ) ≠ 30)
      ∧ (ImpEv.warnFps ∈ (importExecute ctxRateImp).events ↔ (24 : ℚ) ≠ 30)
      ∧ (importExecute ctxRateImp).fpsFinal = 30 := by
  obtain ⟨-, h2, -, h4, -, h6, h7⟩ := sampling_rate_spec
  refine ⟨h2 60 10 40, h4 60 10 3 (by norm_num) (by norm_num), ?_, ?_, ?_⟩
  · exact (h6 (fun _ => tId) (fun _ _ _ => 1) 1 ctxRate axisPerp_YZ rfl
      (by norm_num [ctxRate]) rfl (by norm_num [ctxRate]) rfl
      (by norm_num [ctxRate]) (by norm_num [ctxRate])).1
  · exact (h7 ctxRateImp axisPerp_YZ).2.1
  · exact (h7 ctxRateImp axisPerp_YZ).1

/-!  ## Claim C9 — axis-frame algebra  -/

theorem dotQ_comm (u v : Fin 3 → ℚ) : dotQ u v = dotQ v u := by
  unfold dotQ
  ring

theorem dot_cross_left (u v : Fin 3 → ℚ) : dotQ u (crossQ u v) = 0 := by
  simp [dotQ, crossQ]
  ring

theorem dot_cross_right (u v : Fin 3 → ℚ) : dotQ v (crossQ u v) = 0 := by
  simp [dotQ, crossQ]
  ring

theorem cross_dot_cross (u v : Fin 3 → ℚ) :
    dotQ (crossQ u v) (crossQ u v)
      = dotQ u u * dotQ v v - dotQ u v * dotQ u v := by
  simp [dotQ, crossQ]
  ring

theorem axisVec_dot_self : ∀ a : Axis, dotQ (axisVec a) (axisVec a) = 1 := by
  intro a
  cases a <;> norm_num [dotQ, axisVec]

theorem colMat_orth (c0 c1 c2 : Fin 3 → ℚ)
    (h00 : dotQ c0 c0 = 1) (h11 : dotQ c1 c1 = 1) (h22 : dotQ c2 c2 = 1)
    (h01 : dotQ c0 c1 = 0) (h02 : dotQ c0 c2 = 0) (h12 : dotQ c1 c2 = 0) :
    (Matrix.of fun i j => ![c0, c1, c2] j i)ᵀ
        * (Matrix.of fun i j => ![c0, c1, c2] j i) = 1 := by
  unfold dotQ at h00 h11 h22 h01 h02 h12
  ext i j
  rw [Matrix.mul_apply, Fin.sum_univ_three]
  fin_cases i <;> fin_cases j <;>
    simp [Matrix.transpose_apply, Matrix.one_apply] <;>
    (ring_nf at h00 h11 h22 h01 h02 h12 ⊢; linarith [h00, h11, h22, h01, h02, h12])

theorem basisMat_orth (f u : Axis) (h : axisPerp f u) :
    (basisMat f u)ᵀ * basisMat f u = 1 :=
  colMat_orth (axisVec f) (axisVec u) (crossQ (axisVec f) (axisVec u))
    (axisVec_dot_self f) (axisVec_dot_self u)
    (by rw [cross_dot_cross, axisVec_dot_self, axisVec_dot_self, h]; ring)
    h (dot_cross_left _ _) (dot_cross_right _ _)

theorem basisMat_mul_transpose (f u : Axis) (h : axisPerp f u) :
    basisMat f u * (basisMat f u)ᵀ = 1 :=
  Matrix.mul_eq_one_comm.mp (basisMat_orth f u h)

theorem axisConvQ_orth (ff fu tf tu : Axis)
    (h1 : axisPerp ff fu) (h2 : axisPerp tf tu) :
    axisConvQ ff fu tf tu * (axisConvQ ff fu tf tu)ᵀ = 1 := by
  unfold axisConvQ
  rw [Matrix.transpose_mul, Matrix.transpose_transpose]
  rw [Matrix.mul_assoc, ← Matrix.mul_assoc (basisMat ff fu)ᵀ]
  rw [basisMat_orth ff fu h1, Matrix.one_mul]
  exact basisMat_mul_transpose tf tu h2

theorem axisConvQ_same (f u : Axis) (h : axisPerp f u) :
    axisConvQ f u f u = 1 := by
  unfold axisConvQ
  exact basisMat_mul_transpose f u h

theorem colMat_det (c0 c1 c2 : Fin 3 → ℚ) :
    (Matrix.of fun i j => ![c0, c1, c2] j i).det = dotQ c2 (crossQ c0 c1) := by
  rw [Matrix.det_fin_three]
  simp [dotQ, crossQ, Matrix.cons_val_two, Matrix.tail_cons]
  ring

theorem basisMat_det (f u : Axis) (h : axisPerp f u) :
    (basisMat f u).det = 1 := by
  unfold basisMat
  rw [colMat_det, cross_dot_cross, axisVec_dot_self, axisVec_dot_self, h]
  ring

theorem axisConvQ_det (ff fu tf tu : Axis)
    (h1 : axisPerp ff fu) (h2 : axisPerp tf tu) :
    (axisConvQ ff fu tf tu).det = 1 := by
  unfold axisConvQ
  rw [Matrix.det_mul, Matrix.det_transpose, basisMat_det ff fu h1,
    basisMat_det tf tu h2, mul_one]

theorem mat3ToR_mul (A B : Matrix (Fin 3) (Fin 3) ℚ) :
    mat3ToR (A * B) = mat3ToR A * mat3ToR B := by
  ext i j
  simp [mat3ToR, Matrix.mul_apply]

theorem mat3ToR_one : mat3ToR 1 = 1 := by
  ext i j
  by_cases h : i = j <;> simp [mat3ToR, Matrix.one_apply, h]

theorem mat3ToR_transpose (A : Matrix (Fin 3) (Fin 3) ℚ) :
    mat3ToR Aᵀ = (mat3ToR A)ᵀ := rfl

theorem to4x4_mul (A B : Matrix (Fin 3) (Fin 3) ℝ) :
    to4x4 A * to4x4 B = to4x4 (A * B) := by
  ext i j
  rw [Matrix.mul_apply, Fin.sum_univ_four]
  fin_cases i <;> fin_cases j <;>
    simp [to4x4, Matrix.mul_apply, Fin.sum_univ_three, Matrix.cons_val_two,
      Matrix.cons_val_three, Matrix.tail_cons]

theorem to4x4_one : to4x4 1 = 1 := by
  ext i j
  fin_cases i <;> fin_cases j <;>
    simp [to4x4, Matrix.one_apply, Matrix.cons_val_two, Matrix.cons_val_three,
      Matrix.tail_cons, Matrix.vecHead, Matrix.vecTail]

theorem to4x4_transpose (A : Matrix (Fin 3) (Fin 3) ℝ) :
    (to4x4 A)ᵀ = to4x4 Aᵀ := by
  ext i j
  fin_cases i <;> fin_cases j <;>
    simp [to4x4, Matrix.transpose_apply, Matrix.cons_val_two,
      Matrix.cons_val_three, Matrix.tail_cons]

theorem frameRot_orth (ff fu tf tu : Axis)
    (h1 : axisPerp ff fu) (h2 : axisPerp tf tu) :
    frameRot ff fu tf tu * (frameRot ff fu tf tu)ᵀ = 1 := by
  unfold frameRot
  rw [to4x4_transpose, ← mat3ToR_transpose, to4x4_mul, ← mat3ToR_mul,
    axisConvQ_orth ff fu tf tu h1 h2, mat3ToR_one, to4x4_one]

theorem frameRot_same (f u : Axis) (h : axisPerp f u) :
    frameRot f u f u = 1 := by
  unfold frameRot
  rw [axisConvQ_same f u h, mat3ToR_one, to4x4_one]

theorem vdivs_one (v : Vec3) : vdivs v 1 = v := by
  simp [vdivs]

theorem qnormSq_nonneg (q : Quat) : 0 ≤ qnormSq q := by
  unfold qnormSq
  positivity

theorem qnorm_one_normSq (q : Quat) (hq : qnorm q = 1) : qnormSq q = 1 := by
  have h2 := Real.sq_sqrt (qnormSq_nonneg q)
  rw [← qnorm] at h2
  rw [hq] at h2
  simpa using h2.symm

theorem qnormalize_of_norm_one (q : Quat) (hq : qnorm q = 1) :
    qnormalize q = q := by
  rw [qnormalize, if_neg (by rw [hq]; norm_num), hq]
  simp

theorem qnorm_tId : qnorm tId.rot = 1 := by
  show qnorm ⟨1, 0, 0, 0⟩ = 1
  have h : qnormSq ⟨1, 0, 0, 0⟩ = 1 := by norm_num [qnormSq]
  rw [qnorm, h, Real.sqrt_one]

theorem snapLocVal_dev (eps v : ℝ) (h : 0 < eps) :
    |snapLocVal eps v - v| < eps := by
  unfold snapLocVal
  split_ifs with hv
  · rw [zero_sub, abs_neg]
    exact hv
  · simpa using h

theorem snapSclVal_dev (eps v : ℝ) (h : 0 < eps) :
    |snapSclVal eps v - v| < eps := by
  unfold snapSclVal
  split_ifs with hv
  · rw [← abs_neg]
    simpa [abs_sub_comm] using hv
  · simpa using h

theorem div_dev_lt_of_bounds (c n : ℝ) (hc : |c| ≤ 1) (_hn : 0 < n)
    (hlo : 1 - 1e-3 < 1/n) (hhi : 1/n - 1 < 1e-3) :
    |c / n - c| < 1e-3 := by
  have heq : c / n - c = c * (1/n - 1) := by ring
  rw [heq, abs_mul]
  have hb : |1/n - 1| < 1e-3 := abs_lt.mpr ⟨by linarith, by linarith⟩
  calc |c| * |1/n - 1| ≤ 1 * |1/n - 1| :=
        mul_le_mul_of_nonneg_right hc (abs_nonneg _)
    _ = |1/n - 1| := one_mul _
    _ < 1e-3 := hb

theorem snapRot_dev (q : Quat) (hq : qnorm q = 1) :
    |(snapRot (1e-3) q).w - q.w| < 1e-3 ∧ |(snapRot (1e-3) q).x - q.x| < 1e-3
      ∧ |(snapRot (1e-3) q).y - q.y| < 1e-3
      ∧ |(snapRot (1e-3) q).z - q.z| < 1e-3 := by
  have hS : qnormSq q = 1 := qnorm_one_normSq q hq
  unfold qnormSq at hS
  have hw_le : q.w ≤ 1 := by
    nlinarith [sq_nonneg q.x, sq_nonneg q.y, sq_nonneg q.z, sq_nonneg (q.w - 1)]
  have habs_w : |q.w| ≤ 1 := abs_le.mpr
    ⟨by nlinarith [sq_nonneg q.x, sq_nonneg q.y, sq_nonneg q.z, sq_nonneg (q.w + 1)], hw_le⟩
  have habs_x : |q.x| ≤ 1 := abs_le.mpr
    ⟨by nlinarith [sq_nonneg q.w, sq_nonneg q.y, sq_nonneg q.z, sq_nonneg (q.x + 1)],
     by nlinarith [sq_nonneg q.w, sq_nonneg q.y, sq_nonneg q.z, sq_nonneg (q.x - 1)]⟩
  have habs_y : |q.y| ≤ 1 := abs_le.mpr
    ⟨by nlinarith [sq_nonneg q.w, sq_nonneg q.x, sq_nonneg q.z, sq_nonneg (q.y + 1)],
     by nlinarith [sq_nonneg q.w, sq_nonneg q.x, sq_nonneg q.z, sq_nonneg (q.y - 1)]⟩
  have habs_z : |q.z| ≤ 1 := abs_le.mpr
    ⟨by nlinarith [sq_nonneg q.w, sq_nonneg q.x, sq_nonneg q.y, sq_nonneg (q.z + 1)],
     by nlinarith [sq_nonneg q.w, sq_nonneg q.x, sq_nonneg q.y, sq_nonneg (q.z - 1)]⟩
  rw [snapRot, qnormalize_of_norm_one q hq]
  set s := snapRotComps (1e-3) q with hs_def
  have hsw : s.w = if |q.w - 1| < 1e-3 then 1 else q.w := rfl
  have hsx : s.x = if |q.x| < 1e-3 then 0 else q.x := rfl
  have hsy : s.y = if |q.y| < 1e-3 then 0 else q.y := rfl
  have hsz : s.z = if |q.z| < 1e-3 then 0 else q.z := rfl
  have hx2 : s.x ^ 2 ≤ q.x ^ 2 := by
    rw [hsx]; split_ifs
    · simpa using sq_nonneg q.x
    · exact le_refl _
  have hy2 : s.y ^ 2 ≤ q.y ^ 2 := by
    rw [hsy]; split_ifs
    · simpa using sq_nonneg q.y
    · exact le_refl _
  have hz2 : s.z ^ 2 ≤ q.z ^ 2 := by
    rw [hsz]; split_ifs
    · simpa using sq_nonneg q.z
    · exact le_refl _
  by_cases hw : |q.w - 1| < 1e-3
  · -- w is snapped to 1
    have hsw1 : s.w = 1 := by rw [hsw, if_pos hw]
    have hw_lb : 1 - 1e-3 < q.w := by
      have h := abs_lt.mp hw
      linarith [h.1]
    have hN_def : qnormSq s = 1 + (s.x ^ 2 + s.y ^ 2 + s.z ^ 2) := by
      rw [qnormSq, hsw1]; ring
    have hN1 : 1 ≤ qnormSq s := by
      rw [hN_def]
      nlinarith [sq_nonneg s.x, sq_nonneg s.y, sq_nonneg s.z]
    have hN2 : qnormSq s < 1 + 2/1000 := by
      rw [hN_def]
      nlinarith [hx2, hy2, hz2, hw_lb, hw_le]
    have hn2 : qnorm s ^ 2 = qnormSq s := by
      rw [qnorm]; exact Real.sq_sqrt (qnormSq_nonneg s)
    have hn_nn : 0 ≤ qnorm s := Real.sqrt_nonneg _
    have hn_ge1 : 1 ≤ qnorm s := by nlinarith [hn2, hN1, hn_nn]
    have hn_pos : 0 < qnorm s := lt_of_lt_of_le one_pos hn_ge1
    have hn0 : ¬ qnorm s = 0 := ne_of_gt hn_pos
    have hinvle : 1 / qnorm s ≤ 1 := by
      rw [div_le_one hn_pos]; exact hn_ge1
    have hn_lt : qnorm s < 1000/999 := by
      by_contra hcon
      push_neg at hcon
      have : (1000/999 : ℝ) ^ 2 ≤ qnorm s ^ 2 := by nlinarith [hn_nn]
      nlinarith [hn2, hN2]
    have hlo : 1 - 1e-3 < 1 / qnorm s := by
      rw [lt_div_iff₀ hn_pos]
      nlinarith [hn_lt]
    have hhi : 1 / qnorm s - 1 < 1e-3 := by
      have : (0:ℝ) < 1e-3 := by norm_num
      linarith [hinvle]
    have hqn : qnormalize s
        = ⟨s.w / qnorm s, s.x / qnorm s, s.y / qnorm s, s.z / qnorm s⟩ := by
      rw [qnormalize, if_neg hn0]
    simp only [hqn]
    refine ⟨?_, ?_, ?_, ?_⟩
    · rw [hsw1]
      rw [abs_lt]
      constructor
      · linarith [hlo, hw_le]
      · linarith [hinvle, hw_lb]
    · by_cases hx : |q.x| < 1e-3
      · rw [hsx, if_pos hx, zero_div, zero_sub, abs_neg]
        exact hx
      · rw [hsx, if_neg hx]
        exact div_dev_lt_of_bounds q.x (qnorm s) habs_x hn_pos hlo hhi
    · by_cases hy : |q.y| < 1e-3
      · rw [hsy, if_pos hy, zero_div, zero_sub, abs_neg]
        exact hy
      · rw [hsy, if_neg hy]
        exact div_dev_lt_of_bounds q.y (qnorm s) habs_y hn_pos hlo hhi
    · by_cases hz : |q.z| < 1e-3
      · rw [hsz, if_pos hz, zero_div, zero_sub, abs_neg]
        exact hz
      · rw [hsz, if_neg hz]
        exact div_dev_lt_of_bounds q.z (qnorm s) habs_z hn_pos hlo hhi
  · -- w is kept
    have hsw1 : s.w = q.w := by rw [hsw, if_neg hw]
    have hx2' : q.x ^ 2 - s.x ^ 2 ≤ 1/1000000 := by
      rw [hsx]; split_ifs with h
      · have hh := abs_lt.mp h
        nlinarith [hh.1, hh.2]
      · nlinarith [sq_nonneg q.x]
    have hy2' : q.y ^ 2 - s.y ^ 2 ≤ 1/1000000 := by
      rw [hsy]; split_ifs with h
      · have hh := abs_lt.mp h
        nlinarith [hh.1, hh.2]
      · nlinarith [sq_nonneg q.y]
    have hz2' : q.z ^ 2 - s.z ^ 2 ≤ 1/1000000 := by
      rw [hsz]; split_ifs with h
      · have hh := abs_lt.mp h
        nlinarith [hh.1, hh.2]
      · nlinarith [sq_nonneg q.z]
    have hN_le : qnormSq s ≤ 1 := by
      rw [qnormSq, hsw1]
      nlinarith [hx2, hy2, hz2]
    have hN_ge : 1 - 3/1000000 ≤ qnormSq s := by
      rw [qnormSq, hsw1]
      nlinarith [hx2', hy2', hz2']
    have hn2 : qnorm s ^ 2 = qnormSq s := by
      rw [qnorm]; exact Real.sq_sqrt (qnormSq_nonneg s)
    have hn_nn : 0 ≤ qnorm s := Real.sqrt_nonneg _
    have hn_le1 : qnorm s ≤ 1 := by nlinarith [hn2, hN_le, hn_nn]
    have hn_gt : (1000/1001 : ℝ) < qnorm s := by
      by_contra hcon
      push_neg at hcon
      have : qnorm s ^ 2 ≤ (1000/1001 : ℝ) ^ 2 := by nlinarith [hn_nn]
      nlinarith [hn2, hN_ge]
    have hn_pos : 0 < qnorm s := lt_trans (by norm_num) hn_gt
    have hn0 : ¬ qnorm s = 0 := ne_of_gt hn_pos
    have hinv_ge1 : 1 ≤ 1 / qnorm s := by
      rw [le_div_iff₀ hn_pos]
      linarith [hn_le1]
    have hlo : 1 - 1e-3 < 1 / qnorm s := by
      have : (0:ℝ) < 1e-3 := by norm_num
      linarith [hinv_ge1]
    have hhi : 1 / qnorm s - 1 < 1e-3 := by
      have h1 : 1 / qnorm s < 1 + 1e-3 := by
        rw [div_lt_iff₀ hn_pos]
        nlinarith [hn_gt]
      linarith
    have hqn : qnormalize s
        = ⟨s.w / qnorm s, s.x / qnorm s, s.y / qnorm s, s.z / qnorm s⟩ := by
      rw [qnormalize, if_neg hn0]
    simp only [hqn]
    refine ⟨?_, ?_, ?_, ?_⟩
    · rw [hsw1]
      exact div_dev_lt_of_bounds q.w (qnorm s) habs_w hn_pos hlo hhi
    · by_cases hx : |q.x| < 1e-3
      · rw [hsx, if_pos hx, zero_div, zero_sub, abs_neg]
        exact hx
      · rw [hsx, if_neg hx]
        exact div_dev_lt_of_bounds q.x (qnorm s) habs_x hn_pos hlo hhi
    · by_cases hy : |q.y| < 1e-3
      · rw [hsy, if_pos hy, zero_div, zero_sub, abs_neg]
        exact hy
      · rw [hsy, if_neg hy]
        exact div_dev_lt_of_bounds q.y (qnorm s) habs_y hn_pos hlo hhi
    · by_cases hz : |q.z| < 1e-3
      · rw [hsz, if_pos hz, zero_div, zero_sub, abs_neg]
        exact hz
      · rw [hsz, if_neg hz]
        exact div_dev_lt_of_bounds q.z (qnorm s) habs_z hn_pos hlo hhi

/-- C9: for every successfully constructed axis frame (both forward/up
pairs perpendicular), the forward matrix is orthonormal with determinant
one (a pure rotation, no scale or shear) and the inverse is its transpose;
when the source and destination axes coincide, forward and inverse are both
the identity, and transcoding a key through such a frame with
`length_scale = 1` reproduces the input transform within the snap
thresholds — translation and scale components within `1e-4`, and, for a
unit input rotation, rotation components within `1e-3` — provided the
external decomposition inverts the composition at that key. -/
theorem axis_frame_spec (ff fu tf tu : Axis)
    (h1 : axisPerp ff fu) (h2 : axisPerp tf tu) :
    (frameRot ff fu tf tu * (frameRot ff fu tf tu)ᵀ = 1
      ∧ frameRotInv ff fu tf tu = (frameRot ff fu tf tu)ᵀ
      ∧ (axisConvQ ff fu tf tu).det = 1)
    ∧ (ff = tf → fu = tu →
        frameRot ff fu tf tu = 1 ∧ frameRotInv ff fu tf tu = 1
        ∧ ∀ (decompose : Matrix (Fin 4) (Fin 4) ℝ → Transform) (t : Transform),
            decompose (locRotScale t.loc t.rot t.scl) = t →
            qnorm t.rot = 1 →
            (let out := importKeyValue decompose 1 (frameRot ff fu tf tu)
                (frameRotInv ff fu tf tu) t.loc t.rot t.scl
             (|out.loc.x - t.loc.x| < 1e-4 ∧ |out.loc.y - t.loc.y| < 1e-4
                ∧ |out.loc.z - t.loc.z| < 1e-4)
              ∧ (|out.rot.w - t.rot.w| < 1e-3 ∧ |out.rot.x - t.rot.x| < 1e-3
                ∧ |out.rot.y - t.rot.y| < 1e-3 ∧ |out.rot.z - t.rot.z| < 1e-3)
              ∧ (|out.scl.x - t.scl.x| < 1e-4 ∧ |out.scl.y - t.scl.y| < 1e-4
                ∧ |out.scl.z - t.scl.z| < 1e-4))) := by
  refine ⟨⟨frameRot_orth ff fu tf tu h1 h2, rfl, axisConvQ_det ff fu tf tu h1 h2⟩, ?_⟩
  rintro rfl rfl
  have hid : frameRot ff fu ff fu = 1 := frameRot_same ff fu h1
  have hidInv : frameRotInv ff fu ff fu = 1 := by
    rw [frameRotInv, hid, Matrix.transpose_one]
  refine ⟨hid, hidInv, ?_⟩
  intro decompose t hdec hrot
  have hkey : importKeyValue decompose 1 (frameRot ff fu ff fu)
      (frameRotInv ff fu ff fu) t.loc t.rot t.scl
      = snapTransform (1e-4) (1e-3) (1e-4) t := by
    simp only [importKeyValue]
    rw [hid, hidInv, Matrix.one_mul, Matrix.mul_one, vdivs_one, hdec]
  simp only [hkey]
  have hrotdev := snapRot_dev t.rot hrot
  refine ⟨⟨?_, ?_, ?_⟩, ⟨hrotdev.1, hrotdev.2.1, hrotdev.2.2.1, hrotdev.2.2.2⟩,
    ?_, ?_, ?_⟩
  · exact snapLocVal_dev (1e-4) t.loc.x (by norm_num)
  · exact snapLocVal_dev (1e-4) t.loc.y (by norm_num)
  · exact snapLocVal_dev (1e-4) t.loc.z (by norm_num)
  · exact snapSclVal_dev (1e-4) t.scl.x (by norm_num)
  · exact snapSclVal_dev (1e-4) t.scl.y (by norm_num)
  · exact snapSclVal_dev (1e-4) t.scl.z (by norm_num)

/-- C9 witness: the default `Y`/`Z` frame against itself — the forward
matrix is orthonormal and equal to the identity, and the identity transform
passes through the import pipeline within the snap thresholds. -/
theorem axis_frame_spec_witness :
    (frameRot Axis.Y Axis.Z Axis.Y Axis.Z
        * (frameRot Axis.Y Axis.Z Axis.Y Axis.Z)ᵀ = 1)
      ∧ frameRot Axis.Y Axis.Z Axis.Y Axis.Z = 1
      ∧ (let out := importKeyValue (fun _ => tId) 1
            (frameRot Axis.Y Axis.Z Axis.Y Axis.Z)
            (frameRotInv Axis.Y Axis.Z Axis.Y Axis.Z) tId.loc tId.rot tId.scl
         (|out.loc.x - tId.loc.x| < 1e-4 ∧ |out.loc.y - tId.loc.y| < 1e-4
            ∧ |out.loc.z - tId.loc.z| < 1e-4)
          ∧ (|out.rot.w - tId.rot.w| < 1e-3 ∧ |out.rot.x - tId.rot.x| < 1e-3
            ∧ |out.rot.y - tId.rot.y| < 1e-3 ∧ |out.rot.z - tId.rot.z| < 1e-3)
          ∧ (|out.scl.x - tId.scl.x| < 1e-4 ∧ |out.scl.y - tId.scl.y| < 1e-4
            ∧ |out.scl.z - tId.scl.z| < 1e-4)) := by
  have h := axis_frame_spec Axis.Y Axis.Z Axis.Y Axis.Z axisPerp_YZ axisPerp_YZ
  have h2 := h.2 rfl rfl
  exact ⟨h.1.1, h2.1, h2.2.2 (fun _ => tId) tId rfl qnorm_tId⟩

end IoHkx
